import Mathlib

/-!
Verification development for the subsetting engine of the ptm-pipeline
repository (`test_data/subset_utils.py`).  The Python functions
`select_phosphosites`, `select_proteins`, `_update_summary`,
`filter_phospho_xlsx`, `filter_protein_xlsx` and `filter_annotation_tsv`
are shallowly embedded below: spreadsheet cells become the `Cell` type,
sheets become header/row lists, fallible operations (Python `KeyError`,
`ValueError`, `ZeroDivisionError`) return `Except Err`, and the shared
`random` module is abstracted as a state-threading `Sampler`.
-/

set_option maxRecDepth 8000

namespace PtmSubset

/-- Cell values as read from a workbook by openpyxl: an empty cell is
`none`; data cells carry strings, booleans or integers.  The `rat`
constructor holds the exact rational standing in for a Python float
(floats appear only in the recomputed summary sheet; the decimal string
form of a float cell is not modelled, and no claim reads one). -/
inductive Cell where
  | none : Cell
  | str : String → Cell
  | bool : Bool → Cell
  | int : Int → Cell
  | rat : ℚ → Cell
  deriving DecidableEq, Repr

/-- The Python exceptions the embedded code can raise. -/
inductive Err where
  | keyError : Err
  | valueError : Err
  | zeroDivision : Err
  deriving DecidableEq, Repr

instance {ε α : Type} [DecidableEq ε] [DecidableEq α] : DecidableEq (Except ε α) :=
  fun x y =>
    match x, y with
    | Except.error e, Except.error f =>
      match decEq e f with
      | Decidable.isTrue h => Decidable.isTrue (h ▸ rfl)
      | Decidable.isFalse h => Decidable.isFalse (fun hh => h (Except.error.inj hh))
    | Except.ok a, Except.ok b =>
      match decEq a b with
      | Decidable.isTrue h => Decidable.isTrue (h ▸ rfl)
      | Decidable.isFalse h => Decidable.isFalse (fun hh => h (Except.ok.inj hh))
    | Except.error _, Except.ok _ => Decidable.isFalse (fun hh => Except.noConfusion hh)
    | Except.ok _, Except.error _ => Decidable.isFalse (fun hh => Except.noConfusion hh)

abbrev Row := List Cell
abbrev Grid := List Row
abbrev Workbook := List (String × Grid)

/-- Python `str(...)` on a cell value, as used on `SequenceWindow` and
`modAA` cells.  Integers and the literals `None`/`True`/`False` match
CPython; the decimal form of a float is not modelled (unused). -/
def pyStr : Cell → String
  | Cell.none => "None"
  | Cell.str s => s
  | Cell.bool true => "True"
  | Cell.bool false => "False"
  | Cell.int n => toString n
  | Cell.rat _ => "<float>"

/-- Python falsiness of a cell value (`not sw`). -/
def pyFalsy : Cell → Bool
  | Cell.none => true
  | Cell.str s => s == ""
  | Cell.bool b => !b
  | Cell.int n => n == 0
  | Cell.rat q => q == 0

/-- Python `x in (True, "True", "TRUE")`.  Python `==` identifies `True`
with the numbers `1` and `1.0`, so those are flagged as well. -/
def isTrueFlag : Cell → Bool
  | Cell.bool b => b
  | Cell.str s => s == "True" || s == "TRUE"
  | Cell.int n => n == 1
  | Cell.rat q => q == 1
  | Cell.none => false

/-- Python `cell in keep_contrasts` for a list of strings: only a string
cell can equal a Python `str`. -/
def cellInStrs (c : Cell) (l : List String) : Bool :=
  match c with
  | Cell.str s => decide (s ∈ l)
  | _ => false

/-- `row[i]`.  openpyxl's `iter_rows` pads every row of the used range
with `None` cells to a common width, so a missing position reads as an
empty cell. -/
def cellAt (r : Row) (i : Nat) : Cell := r.getD i Cell.none

/-- Header row of a sheet as read by `read_xlsx_sheet` (empty sheet gives
an empty header). -/
def headOf : Grid → Row
  | [] => []
  | h :: _ => h

/-- Data rows of a sheet as read by `read_xlsx_sheet`. -/
def tailRows : Grid → List Row
  | [] => []
  | _ :: t => t

/-- `wb[name]` as an option. -/
def sheet? (wb : Workbook) (n : String) : Option Grid :=
  match wb with
  | [] => Option.none
  | (k, g) :: t => if k = n then some g else sheet? t n

/-- `wb[name]`, raising `KeyError` when the sheet is absent. -/
def getSheet (wb : Workbook) (n : String) : Except Err Grid :=
  match sheet? wb n with
  | some g => Except.ok g
  | Option.none => Except.error Err.keyError

/-- Position of a header cell, Python `headers.index(n)` as an option. -/
def hIndex (hdrs : Row) (n : String) : Option Nat :=
  hdrs.findIdx? (fun c => decide (c = Cell.str n))

/-- `headers.index(n)`, raising `ValueError` when the column is absent. -/
def exIdx (hdrs : Row) (n : String) : Except Err Nat :=
  match hIndex hdrs n with
  | some i => Except.ok i
  | Option.none => Except.error Err.valueError

/-- Python `a // b` on non-negative ints, raising `ZeroDivisionError`. -/
def pyDiv (a b : Nat) : Except Err Nat :=
  if b = 0 then Except.error Err.zeroDivision else Except.ok (a / b)

/-- Association-list lookup (first match), modelling Python dict access. -/
def alookup {α β : Type} [DecidableEq α] (l : List (α × β)) (k : α) : Option β :=
  match l with
  | [] => Option.none
  | (k', v) :: t => if k' = k then some v else alookup t k

/-- Keys of an association list, in order. -/
def keysOf {α β : Type} (l : List (α × β)) : List α := l.map Prod.fst

/-- Order-preserving removal of duplicates, keeping first occurrences:
the key order of a Python dict built by repeated insertion. -/
def firstDedupGo (seen : List String) : List String → List String
  | [] => []
  | x :: t => if x ∈ seen then firstDedupGo seen t else x :: firstDedupGo (x :: seen) t

def firstDedup (l : List String) : List String := firstDedupGo [] l

/-! ## Site selection (`select_phosphosites`, lines 65-163) -/

/-- Metadata kept per valid site from the wide sheet (lines 117-120). -/
structure SiteMeta where
  modAA : String
  protein : Cell
  deriving DecidableEq, Repr

/-- Python dict assignment `d[s] = m`: replace in place, else append. -/
def metaUpsert (s : Cell) (m : SiteMeta) : List (Cell × SiteMeta) → List (Cell × SiteMeta)
  | [] => [(s, m)]
  | (k, v) :: t => if k = s then (k, m) :: t else (k, v) :: metaUpsert s m t

/-- The `SequenceWindow` validity test of lines 114-115: the row is kept
iff `sw` is truthy, `str(sw) != "None"` and `len(str(sw)) >= 7`. -/
def validSW (c : Cell) : Bool :=
  !pyFalsy c && decide (pyStr c ≠ "None") && decide (7 ≤ (pyStr c).length)

/-- One wide-sheet row of the `site_meta` loop (lines 108-120). -/
def metaStep (siteI revI conI swI modI protI : Nat)
    (acc : List (Cell × SiteMeta)) (row : Row) : List (Cell × SiteMeta) :=
  if isTrueFlag (cellAt row revI) then acc
  else if isTrueFlag (cellAt row conI) then acc
  else if !validSW (cellAt row swI) then acc
  else metaUpsert (cellAt row siteI) ⟨pyStr (cellAt row modI), cellAt row protI⟩ acc

/-- The `site_meta` dict (lines 107-120): the last valid row wins. -/
def buildMeta (siteI revI conI swI modI protI : Nat) (rows : List Row) :
    List (Cell × SiteMeta) :=
  rows.foldl (metaStep siteI revI conI swI modI protI) []

/-- `site_contrasts.setdefault(site, set())` followed by a conditional
`add(contrast)` (lines 93-95), on an insertion-ordered dict whose values
are duplicate-free contrast lists. -/
def scInsert (s : Cell) (c : String) (hasFdr : Bool) :
    List (Cell × List String) → List (Cell × List String)
  | [] => [(s, if hasFdr then [c] else [])]
  | (k, cs) :: t =>
    if k = s then (k, if hasFdr ∧ c ∉ cs then cs ++ [c] else cs) :: t
    else (k, cs) :: scInsert s c hasFdr t

/-- One long-sheet row of the `site_contrasts` loop (lines 87-95): rows
whose contrast is not a kept contrast string are skipped. -/
def scStep (siteI contrastI fdrI : Nat) (kc : List String)
    (acc : List (Cell × List String)) (row : Row) : List (Cell × List String) :=
  match cellAt row contrastI with
  | Cell.str c =>
    if c ∈ kc then
      scInsert (cellAt row siteI) c (decide (cellAt row fdrI ≠ Cell.none)) acc
    else acc
  | _ => acc

/-- The `site_contrasts` dict (lines 86-95). -/
def buildSC (siteI contrastI fdrI : Nat) (kc : List String) (rows : List Row) :
    List (Cell × List String) :=
  rows.foldl (scStep siteI contrastI fdrI kc) []

/-- `complete_sites` (lines 124-131): sites with metadata whose kept
contrast set has full size, in insertion order. -/
def completeList (sc : List (Cell × List String)) (meta : List (Cell × SiteMeta))
    (nContrasts : Nat) : List Cell :=
  (sc.filter (fun p => (alookup meta p.1).isSome && decide (p.2.length = nContrasts))).map
    Prod.fst

/-- `partial_sites[c]` (lines 125-135): valid sites whose kept contrast
set is not full and contains `c`, in insertion order. -/
def partListFor (sc : List (Cell × List String)) (meta : List (Cell × SiteMeta))
    (nContrasts : Nat) (c : String) : List Cell :=
  (sc.filter (fun p =>
    (alookup meta p.1).isSome && decide (p.2.length ≠ nContrasts) && decide (c ∈ p.2))).map
    Prod.fst

/-- The deterministic part of `select_phosphosites` before any sampling:
the complete-candidate list, the per-contrast partial-candidate lists
(a dict keyed by the kept contrasts, first occurrences first), and the
site metadata map. -/
structure SelParts where
  complete : List Cell
  partLists : List (String × List Cell)
  meta : List (Cell × SiteMeta)
  deriving DecidableEq, Repr

/-- Lines 80-135 of `select_phosphosites`: read both sheets (KeyError if
absent), resolve all header columns (ValueError if absent), and build the
candidate pools. -/
def selParts (wb : Workbook) (kc : List String) : Except Err SelParts := do
  let g ← getSheet wb "diff_exp_analysis"
  let siteI ← exIdx (headOf g) "site"
  let contrastI ← exIdx (headOf g) "contrast"
  let fdrI ← exIdx (headOf g) "FDR"
  let g2 ← getSheet wb "diff_exp_analysis_wide"
  let wSiteI ← exIdx (headOf g2) "site"
  let wRevI ← exIdx (headOf g2) "REV"
  let wConI ← exIdx (headOf g2) "CON"
  let wSwI ← exIdx (headOf g2) "SequenceWindow"
  let wModI ← exIdx (headOf g2) "modAA"
  let wProtI ← exIdx (headOf g2) "protein_Id"
  let sc := buildSC siteI contrastI fdrI kc (tailRows g)
  let meta := buildMeta wSiteI wRevI wConI wSwI wModI wProtI (tailRows g2)
  return ⟨completeList sc meta kc.length,
          (firstDedup kc).map (fun c => (c, partListFor sc meta kc.length c)),
          meta⟩

/-- `sum(len(v) for v in partial_sites.values())` (line 142). -/
def totalPart (l : List (String × List Cell)) : Nat :=
  (l.map (fun p => p.2.length)).sum

/-- The process-wide `random` module, abstracted: `run st population k`
returns the drawn list and the successor state. -/
structure Sampler (σ : Type) where
  run : σ → List Cell → Nat → List Cell × σ

/-- What `random.sample(population, k)` guarantees for `k ≤ len`:
`k` elements, all from the population, pairwise-distinct positions
(hence a duplicate-free draw from a duplicate-free population). -/
def GoodSampler {σ : Type} (smp : Sampler σ) : Prop :=
  ∀ st l k, k ≤ l.length →
    (smp.run st l k).1.length = k ∧
    (∀ x ∈ (smp.run st l k).1, x ∈ l) ∧
    (l.Nodup → (smp.run st l k).1.Nodup)

/-- A concrete sampler taking the first `k` candidates (one legitimate
draw); state is trivial. -/
def takeSmp : Sampler Unit := ⟨fun _ l k => (l.take k, ())⟩

/-- A sampler that records every `(population, k)` request it serves, in
order, inside its state. -/
def recSmp : Sampler (List (List Cell × Nat)) :=
  ⟨fun st l k => (l.take k, st ++ [(l, k)])⟩

/-- The partial-site loop of lines 148-152: per contrast, the available
candidates are those not already selected, and up to `nPer` of them are
drawn (the RNG is consulted only when the draw is non-empty). -/
def pickGo {σ : Type} (smp : Sampler σ) (nPer : Nat) :
    List (String × List Cell) → Finset Cell → σ → Finset Cell × σ
  | [], sel, st => (sel, st)
  | (_, sites) :: rest, sel, st =>
    let avail := sites.filter (fun s => decide (s ∉ sel))
    let nPick := min nPer avail.length
    if 0 < nPick then
      let r := smp.run st avail nPick
      pickGo smp nPer rest (sel ∪ r.1.toFinset) r.2
    else pickGo smp nPer rest sel st

/-- `site_meta[s]["protein_Id"]` (line 154).  Every selected site has
metadata (Python would raise `KeyError` otherwise; the default is
unreachable on the selection output). -/
def protOf (meta : List (Cell × SiteMeta)) (s : Cell) : Cell :=
  match alookup meta s with
  | some m => m.protein
  | Option.none => Cell.none

/-- `select_phosphosites` (lines 65-163): candidate pools, the complete
sample of `min(n_phospho, len(complete_sites))` sites, the quota
`n_partial = min(n_phospho // 5, total partial)`, the per-contrast quota
`max(1, n_partial // len(keep_contrasts))` (ZeroDivisionError when the
kept-contrast list is empty), the per-contrast draws, and the owning
protein ids of the selection. -/
def selectPhosphosites {σ : Type} (smp : Sampler σ) (st : σ) (wb : Workbook)
    (nPhospho : Nat) (kc : List String) :
    Except Err (Finset Cell × Finset Cell × σ) := do
  let P ← selParts wb kc
  let nComplete := min nPhospho P.complete.length
  let nPart := min (nPhospho / 5) (totalPart P.partLists)
  let comp := smp.run st P.complete nComplete
  let q ← pyDiv nPart kc.length
  let nPer := max 1 q
  let picked := pickGo smp nPer P.partLists comp.1.toFinset comp.2
  return (picked.1, picked.1.image (protOf P.meta), picked.2)

/-- `select_proteins` (lines 166-178): intersect the owning-protein ids
with the protein ids present in the protein wide sheet. -/
def selectProteins (wb : Workbook) (pids : Finset Cell) : Except Err (Finset Cell) := do
  let g ← getSheet wb "diff_exp_analysis_wide"
  let protI ← exIdx (headOf g) "protein_Id"
  return pids ∩ ((tailRows g).map (fun r => cellAt r protI)).toFinset

/-- Steps 1-2 of `run_subset` (lines 388-401): site selection on the
phospho workbook, then protein selection on the protein workbook; the
site keep-set is passed through unchanged. -/
def runSelect {σ : Type} (smp : Sampler σ) (st : σ) (phWb prWb : Workbook)
    (nPhospho : Nat) (kc : List String) : Except Err (Finset Cell × Finset Cell) := do
  let r ← selectPhosphosites smp st phWb nPhospho kc
  let kp ← selectProteins prWb r.2.1
  return (r.1, kp)

/-! ## Multi-sheet filtering and summary recomputation (lines 185-304) -/

/-- One sheet of a filtered workbook: header plus data rows. -/
abbrev SheetData := Row × List Row

/-- The fixed list of entity-keyed wide sheet names (lines 238-246 and
287-295). -/
def entityWideNames : List String :=
  ["diff_exp_analysis_wide", "normalized_abundances", "raw_abundances_matrix",
   "normalized_abundances_matrix", "missing_information", "stats_normalized",
   "stats_normalized_wide", "stats_raw", "stats_raw_wide"]

/-- Dispatch of one sheet by name (the shared shape of
`filter_phospho_xlsx` and `filter_protein_xlsx`, lines 215-252 and
264-301): pass-through, contrast-filtered, entity-and-contrast-filtered,
or entity-filtered; unknown names pass through. -/
def filterSheet (entityKey : String) (keep : Finset Cell) (kc : List String)
    (name : String) (g : Grid) : Except Err SheetData :=
  let hdrs := headOf g
  let rows := tailRows g
  if name = "annotation" ∨ name = "formula" then Except.ok (hdrs, rows)
  else if name = "summary" then Except.ok (hdrs, rows)
  else if name = "contrasts" then do
    let i ← exIdx hdrs "contrast_name"
    return (hdrs, rows.filter (fun r => cellInStrs (cellAt r i) kc))
  else if name = "diff_exp_analysis" then do
    let ei ← exIdx hdrs entityKey
    let ci ← exIdx hdrs "contrast"
    return (hdrs, rows.filter (fun r =>
      decide (cellAt r ei ∈ keep) && cellInStrs (cellAt r ci) kc))
  else if name ∈ entityWideNames then do
    let ei ← exIdx hdrs entityKey
    return (hdrs, rows.filter (fun r => decide (cellAt r ei ∈ keep)))
  else Except.ok (hdrs, rows)

/-- Apply a per-sheet filter to every sheet of a workbook in order,
propagating the first error. -/
def mapSheetsE (f : String → Grid → Except Err SheetData) :
    Workbook → Except Err (List (String × SheetData))
  | [] => Except.ok []
  | (n, g) :: t => do
    let s ← f n g
    let rest ← mapSheetsE f t
    return (n, s) :: rest

/-- String-keyed association lookup over assembled sheets. -/
def slookup (l : List (String × SheetData)) (n : String) : Option SheetData :=
  match l with
  | [] => Option.none
  | (k, v) :: t => if k = n then some v else slookup t n

/-- Python dict assignment `sheets["summary"] = v`: replace in place,
else append at the end. -/
def supsert (l : List (String × SheetData)) (n : String) (v : SheetData) :
    List (String × SheetData) :=
  match l with
  | [] => [(n, v)]
  | (k, w) :: t => if k = n then (n, v) :: t else (k, w) :: supsert t n v

/-- Number of rows whose flag column holds a Python-truthy decoy or
contaminant marker (lines 192-199). -/
def flagCount (rows : List Row) (i : Nat) : Nat :=
  (rows.filter (fun r => isTrueFlag (cellAt r i))).length

/-- `rev_count` for an optional column position. -/
def flagCountOpt (rows : List Row) (i : Option Nat) : Nat :=
  match i with
  | some j => flagCount rows j
  | Option.none => 0

/-- Round half to even at the integers, the idealised `round` of CPython
on an exact value (binary-float representation error is not modelled). -/
def rndHalfEven (x : ℚ) : ℤ :=
  let f : ℤ := Rat.floor x
  let r : ℚ := x - (f : ℚ)
  if r < 1/2 then f
  else if 1/2 < r then f + 1
  else if f % 2 = 0 then f else f + 1

/-- Python `round(x, 2)` on an exact value. -/
def pyRound2 (x : ℚ) : ℚ := (rndHalfEven (x * 100) : ℚ) / 100

/-- Percentage cell of `_update_summary` (lines 200-201): a rounded float
when there are rows, the int `0` otherwise (no division is performed on
an empty sheet). -/
def pctCell (count total : Nat) : Cell :=
  if total ≠ 0 then Cell.rat (pyRound2 ((100 * count : ℚ) / (total : ℚ)))
  else Cell.int 0

/-- The summary sheet recomputed from a filtered wide sheet
(`_update_summary`, lines 185-206). -/
def summarySheet (hdrs : Row) (data : List Row) : SheetData :=
  let nTotal := data.length
  let revCount := flagCountOpt data (hIndex hdrs "REV")
  let conCount := flagCountOpt data (hIndex hdrs "CON")
  ([Cell.str "totalNrOfProteins", Cell.str "percentOfContaminants",
    Cell.str "percentOfFalsePositives", Cell.str "NrOfProteinsNoDecoys"],
   [[Cell.int nTotal, pctCell conCount nTotal, pctCell revCount nTotal,
     Cell.int ((nTotal : Int) - (revCount : Int) - (conCount : Int))]])

/-- `_update_summary(sheets)`: read the filtered wide sheet (Python
`sheets[...]` raises `KeyError` when absent) and overwrite the summary
sheet with the recomputed counters. -/
def updateSummaryE (sheets : List (String × SheetData)) :
    Except Err (List (String × SheetData)) :=
  match slookup sheets "diff_exp_analysis_wide" with
  | some ws => Except.ok (supsert sheets "summary" (summarySheet ws.1 ws.2))
  | Option.none => Except.error Err.keyError

/-- `filter_phospho_xlsx` (lines 209-255). -/
def filterPhosphoXlsx (wb : Workbook) (keepSites : Finset Cell) (kc : List String) :
    Except Err (List (String × SheetData)) := do
  let sheets ← mapSheetsE (filterSheet "site" keepSites kc) wb
  updateSummaryE sheets

/-- `filter_protein_xlsx` (lines 258-304). -/
def filterProteinXlsx (wb : Workbook) (keepProteins : Finset Cell) (kc : List String) :
    Except Err (List (String × SheetData)) := do
  let sheets ← mapSheetsE (filterSheet "protein_Id" keepProteins kc) wb
  updateSummaryE sheets

/-! ## Annotation TSV filtering (`filter_annotation_tsv`, lines 327-354) -/

/-- A delimited annotation table: the header fieldnames and the data rows
(each row aligned with the header, as `csv.DictReader` produces for a
well-formed file). -/
structure Tsv where
  fieldnames : List String
  rows : List (List String)
  deriving DecidableEq, Repr

/-- Python `str.strip()`: drop whitespace from both ends (restricted to
the ASCII whitespace characters; CPython also strips a handful of
Unicode spaces, which do not occur in annotation tables). -/
def pyStrip (s : String) : String :=
  ⟨(((s.data.dropWhile Char.isWhitespace).reverse).dropWhile Char.isWhitespace).reverse⟩

/-- Position of a field in the header. -/
def fieldIdx (fns : List String) (n : String) : Option Nat :=
  fns.findIdx? (fun s => decide (s = n))

/-- `row.get(n, "")` over an aligned row. -/
def getField (fns : List String) (r : List String) (n : String) : String :=
  match fieldIdx fns n with
  | some i => r.getD i ""
  | Option.none => ""

/-- `row[n] = v` for a field present in the header (identity otherwise;
the caller handles the absent-field error separately). -/
def setField (fns : List String) (r : List String) (n v : String) : List String :=
  match fieldIdx fns n with
  | some i => r.set i v
  | Option.none => r

/-- One data row of the explicit-contrast branch (lines 345-351): when
the stripped `ContrastName` is non-empty, not `"NA"` and not kept, both
`ContrastName` and `Contrast` are set to `"NA"`.  Writing the rewritten
row through `csv.DictWriter` raises `ValueError` when the header has no
`Contrast` column (the rewrite added a key outside the fieldnames). -/
def annotRow (fns : List String) (ks : List String) (r : List String) :
    Except Err (List String) :=
  let cn := pyStrip (getField fns r "ContrastName")
  if cn ≠ "" ∧ cn ≠ "NA" ∧ cn ∉ ks then
    if "Contrast" ∈ fns then
      Except.ok (setField fns (setField fns r "ContrastName" "NA") "Contrast" "NA")
    else Except.error Err.valueError
  else Except.ok r

/-- Map a fallible row transform over a row list, first error wins. -/
def mapE {α β : Type} (f : α → Except Err β) : List α → Except Err (List β)
  | [] => Except.ok []
  | x :: t => do
    let y ← f x
    let rest ← mapE f t
    return y :: rest

/-- `filter_annotation_tsv` (lines 327-354) at the table level: the
Group/Control format (no `ContrastName` header) and a `None` contrast
list are copied as is; the explicit format rewrites rows one by one. -/
def filterAnnotationTsv (t : Tsv) (kc : Option (List String)) : Except Err Tsv :=
  if "ContrastName" ∈ t.fieldnames then
    match kc with
    | some ks => do
      let rows ← mapE (annotRow t.fieldnames ks) t.rows
      return ⟨t.fieldnames, rows⟩
    | Option.none => Except.ok t
  else Except.ok t

/-! ## Semantic row predicates used by the claim statements -/

/-- The long sheet holds a row for site `s` with contrast `c` and a
non-null FDR value. -/
def fdrHit (siteI contrastI fdrI : Nat) (rows : List Row) (s : Cell) (c : String) : Prop :=
  ∃ row ∈ rows, cellAt row siteI = s ∧ cellAt row contrastI = Cell.str c ∧
    cellAt row fdrI ≠ Cell.none

/-- The long sheet holds a row for site `s` whose contrast is one of the
kept contrasts (FDR may be null). -/
def keptHit (siteI contrastI : Nat) (kc : List String) (rows : List Row) (s : Cell) : Prop :=
  ∃ row ∈ rows, cellInStrs (cellAt row contrastI) kc = true ∧
    cellAt row siteI = s

instance (siteI contrastI fdrI : Nat) (rows : List Row) (s : Cell) (c : String) :
    Decidable (fdrHit siteI contrastI fdrI rows s c) := by
  unfold fdrHit; infer_instance

instance (siteI contrastI : Nat) (kc : List String) (rows : List Row) (s : Cell) :
    Decidable (keptHit siteI contrastI kc rows s) := by
  unfold keptHit; infer_instance

/-- The contrast set stored for a site after one `scInsert`, as a
function of what was stored before. -/
def scNewCs : Option (List String) → String → Bool → List String
  | Option.none, c, b => if b then [c] else []
  | some cs, c, b => if b ∧ c ∉ cs then cs ++ [c] else cs

/-- Site `s` is recorded with contrast `c` in an accumulated
`site_contrasts` map. -/
def memC (l : List (Cell × List String)) (s : Cell) (c : String) : Prop :=
  ∃ cs, alookup l s = some cs ∧ c ∈ cs

/-- Value invariant of `site_contrasts`: every stored contrast list is
duplicate-free and drawn from the kept contrasts. -/
def scOK (kc : List String) (l : List (Cell × List String)) : Prop :=
  ∀ p ∈ l, p.2.Nodup ∧ ∀ c ∈ p.2, c ∈ kc

/-- A wide-sheet row passes the validity screen of lines 110-115: not
decoy-flagged, not contaminant-flagged, and its sequence window is a
truthy, non-`"None"` value of string length at least 7. -/
def validRow (revI conI swI : Nat) (row : Row) : Prop :=
  isTrueFlag (cellAt row revI) = false ∧ isTrueFlag (cellAt row conI) = false ∧
    validSW (cellAt row swI) = true

instance (revI conI swI : Nat) (row : Row) : Decidable (validRow revI conI swI row) := by
  unfold validRow; infer_instance

/-- `n_complete` of line 141. -/
def nCompleteOf (n : Nat) (P : SelParts) : Nat := min n P.complete.length

/-- `n_partial` of line 142. -/
def nPartOf (n : Nat) (P : SelParts) : Nat := min (n / 5) (totalPart P.partLists)

/-- `n_per_contrast` of line 147 (requires a non-empty contrast list). -/
def nPerOf (n : Nat) (kc : List String) (P : SelParts) : Nat :=
  max 1 (nPartOf n P / kc.length)

/-- The value `select_phosphosites` produces from its candidate pools
when the kept-contrast list is non-empty. -/
def selResult {σ : Type} (smp : Sampler σ) (st : σ) (n : Nat) (kc : List String)
    (P : SelParts) : Finset Cell × Finset Cell × σ :=
  let comp := smp.run st P.complete (nCompleteOf n P)
  let picked := pickGo smp (nPerOf n kc P) P.partLists comp.1.toFinset comp.2
  (picked.1, picked.1.image (protOf P.meta), picked.2)

/-- The rewrite condition of line 348: the stripped `ContrastName` is
non-empty, not already `"NA"`, and not a kept contrast. -/
def annotCond (fns : List String) (ks : List String) (r : List String) : Prop :=
  pyStrip (getField fns r "ContrastName") ≠ "" ∧
    pyStrip (getField fns r "ContrastName") ≠ "NA" ∧
    pyStrip (getField fns r "ContrastName") ∉ ks

instance (fns ks : List String) (r : List String) : Decidable (annotCond fns ks r) := by
  unfold annotCond; infer_instance

/-- The pure per-row effect of the explicit-contrast branch when the
header has both paired columns. -/
def rewriteRow (fns ks : List String) (r : List String) : List String :=
  if annotCond fns ks r then
    setField fns (setField fns r "ContrastName" "NA") "Contrast" "NA"
  else r

/-! ## Concrete data for witnesses and counterexamples -/

/-- A small well-formed phospho workbook: one kept contrast `X`, sites
`s1`, `s2` with non-null FDR for `X`, site `s3` with a null FDR, and
three valid wide-sheet rows. -/
def wbW : Workbook :=
  [("diff_exp_analysis",
    [[Cell.str "site", Cell.str "contrast", Cell.str "FDR"],
     [Cell.str "s1", Cell.str "X", Cell.int 1],
     [Cell.str "s2", Cell.str "X", Cell.int 1],
     [Cell.str "s3", Cell.str "X", Cell.none]]),
   ("diff_exp_analysis_wide",
    [[Cell.str "site", Cell.str "REV", Cell.str "CON", Cell.str "SequenceWindow",
      Cell.str "modAA", Cell.str "protein_Id"],
     [Cell.str "s1", Cell.bool false, Cell.bool false, Cell.str "AAAAAAA",
      Cell.str "S", Cell.str "P1"],
     [Cell.str "s2", Cell.bool false, Cell.bool false, Cell.str "AAAAAAA",
      Cell.str "T", Cell.str "P2"],
     [Cell.str "s3", Cell.bool false, Cell.bool false, Cell.str "AAAAAAA",
      Cell.str "S", Cell.str "P3"]])]

/-- The candidate pools of `wbW` for kept contrasts `["X"]`. -/
def partsW : SelParts :=
  ⟨[Cell.str "s1", Cell.str "s2"],
   [("X", [])],
   [(Cell.str "s1", ⟨"S", Cell.str "P1"⟩), (Cell.str "s2", ⟨"T", Cell.str "P2"⟩),
    (Cell.str "s3", ⟨"S", Cell.str "P3"⟩)]⟩

/-- A protein workbook containing proteins `P1` and `Q9` only. -/
def wbProt : Workbook :=
  [("diff_exp_analysis_wide",
    [[Cell.str "protein_Id", Cell.str "REV", Cell.str "CON"],
     [Cell.str "P1", Cell.bool false, Cell.bool false],
     [Cell.str "Q9", Cell.bool false, Cell.bool false]])]

/-- Phospho workbook for the C2 counterexample: three kept contrasts,
three valid sites each covering exactly one contrast, so every site is a
partial candidate and none is complete. -/
def wbC2 : Workbook :=
  [("diff_exp_analysis",
    [[Cell.str "site", Cell.str "contrast", Cell.str "FDR"],
     [Cell.str "a", Cell.str "X", Cell.int 1],
     [Cell.str "b", Cell.str "Y", Cell.int 1],
     [Cell.str "c", Cell.str "Z", Cell.int 1]]),
   ("diff_exp_analysis_wide",
    [[Cell.str "site", Cell.str "REV", Cell.str "CON", Cell.str "SequenceWindow",
      Cell.str "modAA", Cell.str "protein_Id"],
     [Cell.str "a", Cell.bool false, Cell.bool false, Cell.str "AAAAAAA",
      Cell.str "S", Cell.str "P1"],
     [Cell.str "b", Cell.bool false, Cell.bool false, Cell.str "AAAAAAA",
      Cell.str "S", Cell.str "P2"],
     [Cell.str "c", Cell.bool false, Cell.bool false, Cell.str "AAAAAAA",
      Cell.str "S", Cell.str "P3"]])]

/-- The candidate pools of `wbC2` for kept contrasts `["X", "Y", "Z"]`. -/
def partsC2 : SelParts :=
  ⟨[],
   [("X", [Cell.str "a"]), ("Y", [Cell.str "b"]), ("Z", [Cell.str "c"])],
   [(Cell.str "a", ⟨"S", Cell.str "P1"⟩), (Cell.str "b", ⟨"S", Cell.str "P2"⟩),
    (Cell.str "c", ⟨"S", Cell.str "P3"⟩)]⟩

/-- The filtered workbook produced from `wbW` with an empty keep-set:
both data sheets filtered to no rows, and the recomputed summary (all
counters 0, no division performed) appended. -/
def filtW0 : List (String × SheetData) :=
  [("diff_exp_analysis",
    ([Cell.str "site", Cell.str "contrast", Cell.str "FDR"], [])),
   ("diff_exp_analysis_wide",
    ([Cell.str "site", Cell.str "REV", Cell.str "CON", Cell.str "SequenceWindow",
      Cell.str "modAA", Cell.str "protein_Id"], [])),
   ("summary",
    ([Cell.str "totalNrOfProteins", Cell.str "percentOfContaminants",
      Cell.str "percentOfFalsePositives", Cell.str "NrOfProteinsNoDecoys"],
     [[Cell.int 0, Cell.int 0, Cell.int 0, Cell.int 0]]))]

/-- A workbook whose entity-keyed wide sheet lacks the entity-key
column. -/
def wbBad : Workbook := [("diff_exp_analysis_wide", [[Cell.str "foo"]])]

/-! ## Lemmas -/

lemma cellInStrs_iff (c : Cell) (l : List String) :
    cellInStrs c l = true ↔ ∃ s, c = Cell.str s ∧ s ∈ l := by
  cases c <;> simp [cellInStrs]

/-! ## Basic lemmas: dedup, association lists, samplers -/

lemma mem_firstDedupGo :
    ∀ (l : List String) (seen x), x ∈ firstDedupGo seen l ↔ (x ∈ l ∧ x ∉ seen) := by
  intro l
  induction l with
  | nil => intro seen x; simp [firstDedupGo]
  | cons a t ih =>
    intro seen x
    by_cases h : a ∈ seen
    · simp only [firstDedupGo, if_pos h, ih, List.mem_cons]
      constructor
      · rintro ⟨hx, hs⟩; exact ⟨Or.inr hx, hs⟩
      · rintro ⟨rfl | hx, hs⟩
        · exact absurd h hs
        · exact ⟨hx, hs⟩
    · simp only [firstDedupGo, if_neg h, List.mem_cons, ih, List.mem_cons]
      constructor
      · rintro (rfl | ⟨hx, hs⟩)
        · exact ⟨Or.inl rfl, h⟩
        · exact ⟨Or.inr hx, fun hy => hs (Or.inr hy)⟩
      · rintro ⟨rfl | hx, hs⟩
        · exact Or.inl rfl
        · by_cases hxa : x = a
          · exact Or.inl hxa
          · exact Or.inr ⟨hx, fun hy => hy.elim hxa hs⟩

lemma mem_firstDedup (l : List String) (x : String) : x ∈ firstDedup l ↔ x ∈ l := by
  simp [firstDedup, mem_firstDedupGo]

lemma nodup_firstDedupGo : ∀ (l : List String) (seen), (firstDedupGo seen l).Nodup := by
  intro l
  induction l with
  | nil => intro seen; simp [firstDedupGo]
  | cons a t ih =>
    intro seen
    by_cases h : a ∈ seen
    · simpa [firstDedupGo, if_pos h] using ih seen
    · simp only [firstDedupGo, if_neg h, List.nodup_cons]
      refine ⟨fun hy => ?_, ih (a :: seen)⟩
      exact ((mem_firstDedupGo t (a :: seen) a).mp hy).2 (List.mem_cons_self a seen)

lemma firstDedupGo_eq_self :
    ∀ (l : List String) (seen), l.Nodup → (∀ x ∈ l, x ∉ seen) → firstDedupGo seen l = l := by
  intro l
  induction l with
  | nil => intro seen _ _; rfl
  | cons a t ih =>
    intro seen hnd hdisj
    have ha : a ∉ seen := hdisj a (List.mem_cons_self a t)
    simp only [firstDedupGo, if_neg ha]
    congr 1
    refine ih (a :: seen) (List.nodup_cons.mp hnd).2 ?_
    intro x hx
    intro hy
    rcases List.mem_cons.mp hy with rfl | hy
    · exact (List.nodup_cons.mp hnd).1 hx
    · exact hdisj x (List.mem_cons_of_mem _ hx) hy

lemma firstDedup_eq_self {l : List String} (h : l.Nodup) : firstDedup l = l :=
  firstDedupGo_eq_self l [] h (by simp)

lemma alookup_eq_some_mem {α β : Type} [DecidableEq α] :
    ∀ {l : List (α × β)} {k : α} {v : β}, alookup l k = some v → (k, v) ∈ l := by
  intro l
  induction l with
  | nil => intro k v h; simp [alookup] at h
  | cons p t ih =>
    intro k v h
    obtain ⟨k', v'⟩ := p
    by_cases hk : k' = k
    · subst hk
      have h' : v' = v := by simpa [alookup] using h
      subst h'
      exact List.mem_cons_self _ _
    · simp only [alookup, if_neg hk] at h
      exact List.mem_cons_of_mem _ (ih h)

lemma mem_alookup_of_keysNodup {α β : Type} [DecidableEq α] :
    ∀ {l : List (α × β)} {k : α} {v : β},
      (keysOf l).Nodup → (k, v) ∈ l → alookup l k = some v := by
  intro l
  induction l with
  | nil => intro k v _ h; simp at h
  | cons p t ih =>
    intro k v hnd hm
    obtain ⟨k', v'⟩ := p
    simp only [keysOf, List.map_cons, List.nodup_cons] at hnd
    rcases List.mem_cons.mp hm with h | h
    · obtain ⟨h1, h2⟩ := Prod.ext_iff.mp h
      simp only at h1 h2
      subst h1
      subst h2
      simp [alookup]
    · by_cases hk : k' = k
      · subst hk
        exact absurd (List.mem_map.mpr ⟨(k', v), h, rfl⟩) hnd.1
      · simpa [alookup, if_neg hk] using ih (by simpa [keysOf] using hnd.2) h

lemma alookup_isSome_iff_mem_keys {α β : Type} [DecidableEq α] :
    ∀ (l : List (α × β)) (k : α), (alookup l k).isSome ↔ k ∈ keysOf l := by
  intro l
  induction l with
  | nil => intro k; simp [alookup, keysOf]
  | cons p t ih =>
    intro k
    obtain ⟨k', v'⟩ := p
    by_cases hk : k' = k
    · subst hk; simp [alookup, keysOf]
    · simp [alookup, if_neg hk, keysOf, ih, List.mem_cons, Ne.symm hk]

lemma alookup_mapPair {β : Type} (f : String → β) :
    ∀ (L : List String) (c : String), L.Nodup → c ∈ L →
      alookup (L.map (fun x => (x, f x))) c = some (f c) := by
  intro L
  induction L with
  | nil => intro c _ h; simp at h
  | cons a t ih =>
    intro c hnd hc
    rcases List.mem_cons.mp hc with rfl | hc
    · simp [alookup]
    · have hne : a ≠ c := fun h => (List.nodup_cons.mp hnd).1 (h ▸ hc)
      simp only [List.map_cons, alookup, if_neg hne]
      exact ih c (List.nodup_cons.mp hnd).2 hc

/-! ## Characterising the `site_contrasts` dict -/

lemma mem_scNewCs (o : Option (List String)) (c : String) (b : Bool) (x : String) :
    x ∈ scNewCs o c b ↔ (∃ cs, o = some cs ∧ x ∈ cs) ∨ (b = true ∧ x = c) := by
  cases o with
  | none =>
    cases b <;> simp [scNewCs]
  | some cs =>
    cases b with
    | false => simp [scNewCs]
    | true =>
      by_cases hc : c ∈ cs
      · have he : scNewCs (some cs) c true = cs := by simp [scNewCs, hc]
        rw [he]
        simp only [Option.some.injEq, true_and]
        constructor
        · intro h; exact Or.inl ⟨cs, rfl, h⟩
        · rintro (⟨cs', hcs', h⟩ | rfl)
          · cases hcs'; exact h
          · exact hc
      · have he : scNewCs (some cs) c true = cs ++ [c] := by simp [scNewCs, hc]
        rw [he]
        simp only [List.mem_append, List.mem_singleton, Option.some.injEq, true_and]
        constructor
        · rintro (h | rfl)
          · exact Or.inl ⟨cs, rfl, h⟩
          · exact Or.inr rfl
        · rintro (⟨cs', hcs', h⟩ | rfl)
          · cases hcs'; exact Or.inl h
          · exact Or.inr rfl

lemma nodup_scNewCs (o : Option (List String)) (c : String) (b : Bool)
    (h : ∀ cs, o = some cs → cs.Nodup) : (scNewCs o c b).Nodup := by
  cases o with
  | none => cases b <;> simp [scNewCs]
  | some cs =>
    simp only [scNewCs]
    by_cases hcond : b = true ∧ c ∉ cs
    · rw [if_pos hcond]
      have := h cs rfl
      simp [List.nodup_append, this, hcond.2]
    · rw [if_neg hcond]; exact h cs rfl

lemma alookup_scInsert_self (s : Cell) (c : String) (b : Bool) :
    ∀ (l : List (Cell × List String)),
      alookup (scInsert s c b l) s = some (scNewCs (alookup l s) c b) := by
  intro l
  induction l with
  | nil => simp [scInsert, alookup, scNewCs]
  | cons p t ih =>
    obtain ⟨k, cs⟩ := p
    by_cases hk : k = s
    · subst hk
      simp [scInsert, alookup, scNewCs]
    · simp only [scInsert, if_neg hk, alookup, if_neg hk]
      exact ih

lemma alookup_scInsert_ne (s s' : Cell) (c : String) (b : Bool) (hne : s' ≠ s) :
    ∀ (l : List (Cell × List String)),
      alookup (scInsert s c b l) s' = alookup l s' := by
  intro l
  induction l with
  | nil => simp [scInsert, alookup, Ne.symm hne]
  | cons p t ih =>
    obtain ⟨k, cs⟩ := p
    by_cases hk : k = s
    · subst hk
      simp only [scInsert, if_pos rfl, alookup]
      rw [if_neg (fun h => hne h.symm), if_neg (fun h => hne h.symm)]
    · simp only [scInsert, if_neg hk, alookup]
      by_cases hk' : k = s'
      · simp [hk']
      · rw [if_neg hk', if_neg hk']
        exact ih

lemma keysOf_scInsert (s : Cell) (c : String) (b : Bool) :
    ∀ (l : List (Cell × List String)),
      keysOf (scInsert s c b l) =
        if (alookup l s).isSome then keysOf l else keysOf l ++ [s] := by
  intro l
  induction l with
  | nil => simp [scInsert, keysOf, alookup]
  | cons p t ih =>
    obtain ⟨k, cs⟩ := p
    by_cases hk : k = s
    · subst hk
      simp [scInsert, keysOf, alookup]
    · simp only [scInsert, if_neg hk, keysOf, List.map_cons, alookup, if_neg hk]
      rw [show List.map Prod.fst (scInsert s c b t) = keysOf (scInsert s c b t) from rfl, ih]
      by_cases h : (alookup t s).isSome
      · rw [if_pos h, if_pos h]; rfl
      · rw [if_neg h, if_neg h]; rfl

lemma keysNodup_scInsert (s : Cell) (c : String) (b : Bool)
    (l : List (Cell × List String)) (h : (keysOf l).Nodup) :
    (keysOf (scInsert s c b l)).Nodup := by
  rw [keysOf_scInsert]
  by_cases hs : (alookup l s).isSome
  · rw [if_pos hs]; exact h
  · rw [if_neg hs]
    have : s ∉ keysOf l := fun hm => hs ((alookup_isSome_iff_mem_keys l s).mpr hm)
    simp [List.nodup_append, h, this]

lemma scStep_eq_ins (siteI contrastI fdrI : Nat) (kc : List String)
    (acc : List (Cell × List String)) (row : Row) (c0 : String)
    (hcell : cellAt row contrastI = Cell.str c0) (hkc : c0 ∈ kc) :
    scStep siteI contrastI fdrI kc acc row =
      scInsert (cellAt row siteI) c0 (decide (cellAt row fdrI ≠ Cell.none)) acc := by
  unfold scStep
  rw [hcell]
  simp [hkc]

lemma scStep_eq_skip (siteI contrastI fdrI : Nat) (kc : List String)
    (acc : List (Cell × List String)) (row : Row)
    (h : cellInStrs (cellAt row contrastI) kc = false) :
    scStep siteI contrastI fdrI kc acc row = acc := by
  unfold scStep
  cases hcell : cellAt row contrastI with
  | str c0 =>
    rw [hcell] at h
    simp only [cellInStrs, decide_eq_false_iff_not] at h
    simp [h]
  | none => rfl
  | bool b => rfl
  | int n => rfl
  | rat q => rfl

lemma memC_scStep (siteI contrastI fdrI : Nat) (kc : List String)
    (acc : List (Cell × List String)) (row : Row) (s : Cell) (c : String) :
    memC (scStep siteI contrastI fdrI kc acc row) s c ↔
      memC acc s c ∨
        (cellAt row siteI = s ∧ cellAt row contrastI = Cell.str c ∧ c ∈ kc ∧
          cellAt row fdrI ≠ Cell.none) := by
  by_cases hk : cellInStrs (cellAt row contrastI) kc = true
  · obtain ⟨c0, hcell, hkc⟩ := (cellInStrs_iff _ _).mp hk
    rw [scStep_eq_ins siteI contrastI fdrI kc acc row c0 hcell hkc]
    by_cases hsite : cellAt row siteI = s
    · rw [hsite]
      unfold memC
      rw [alookup_scInsert_self]
      constructor
      · rintro ⟨cs, hcs, hc⟩
        obtain rfl : scNewCs (alookup acc s) c0 (decide (cellAt row fdrI ≠ Cell.none)) = cs :=
          Option.some.inj hcs
        rcases (mem_scNewCs _ _ _ _).mp hc with ⟨cs', hcs', h⟩ | ⟨hb, rfl⟩
        · exact Or.inl ⟨cs', hcs', h⟩
        · exact Or.inr ⟨rfl, hcell, hkc, of_decide_eq_true hb⟩
      · rintro (⟨cs, hcs, hc⟩ | ⟨_, hc0, _, hfdr⟩)
        · exact ⟨_, rfl, (mem_scNewCs _ _ _ _).mpr (Or.inl ⟨cs, hcs, hc⟩)⟩
        · obtain rfl : c0 = c := Cell.str.inj (hcell.symm.trans hc0)
          exact ⟨_, rfl, (mem_scNewCs _ _ _ _).mpr (Or.inr ⟨decide_eq_true hfdr, rfl⟩)⟩
    · unfold memC
      rw [alookup_scInsert_ne _ _ _ _ (fun h => hsite h.symm)]
      constructor
      · exact Or.inl
      · rintro (h | ⟨h, _⟩)
        · exact h
        · exact absurd h hsite
  · rw [scStep_eq_skip siteI contrastI fdrI kc acc row (by revert hk; cases cellInStrs (cellAt row contrastI) kc <;> simp)]
    constructor
    · exact Or.inl
    · rintro (h | ⟨_, hc0, hc, _⟩)
      · exact h
      · exact absurd (by rw [hc0]; simp [cellInStrs, hc]) hk

lemma dom_scStep (siteI contrastI fdrI : Nat) (kc : List String)
    (acc : List (Cell × List String)) (row : Row) (s : Cell) :
    (alookup (scStep siteI contrastI fdrI kc acc row) s).isSome ↔
      (alookup acc s).isSome ∨
        (cellInStrs (cellAt row contrastI) kc = true ∧ cellAt row siteI = s) := by
  by_cases hk : cellInStrs (cellAt row contrastI) kc = true
  · obtain ⟨c0, hcell, hkc⟩ := (cellInStrs_iff _ _).mp hk
    rw [scStep_eq_ins siteI contrastI fdrI kc acc row c0 hcell hkc]
    by_cases hsite : cellAt row siteI = s
    · rw [hsite, alookup_scInsert_self]
      simp [hk, hsite]
    · rw [alookup_scInsert_ne _ _ _ _ (fun h => hsite h.symm)]
      simp [hk, hsite]
  · rw [scStep_eq_skip siteI contrastI fdrI kc acc row (by revert hk; cases cellInStrs (cellAt row contrastI) kc <;> simp)]
    simp [hk]

lemma scOK_scInsert (kc : List String) (site : Cell) (c0 : String) (b : Bool)
    (hkc : c0 ∈ kc) :
    ∀ (acc : List (Cell × List String)), scOK kc acc → scOK kc (scInsert site c0 b acc) := by
  intro acc
  induction acc with
  | nil =>
    intro _ p hp
    rcases List.mem_cons.mp hp with rfl | hp
    · constructor
      · cases b <;> simp
      · intro c hc
        cases b with
        | true => simp at hc; subst hc; exact hkc
        | false => simp at hc
    · simp at hp
  | cons q t ih =>
    intro h
    obtain ⟨k, cs⟩ := q
    have hq := h (k, cs) (List.mem_cons_self _ _)
    have ht : scOK kc t := fun p hp => h p (List.mem_cons_of_mem _ hp)
    by_cases hk : k = site
    · subst hk
      simp only [scInsert, if_pos rfl]
      intro p hp
      rcases List.mem_cons.mp hp with rfl | hp
      · constructor
        · exact nodup_scNewCs (some cs) c0 b (fun cs' hcs' => by cases hcs'; exact hq.1)
        · intro c hc
          rcases (mem_scNewCs (some cs) c0 b c).mp hc with ⟨cs', hcs', hmem⟩ | ⟨_, rfl⟩
          · cases hcs'; exact hq.2 c hmem
          · exact hkc
      · exact ht p hp
    · simp only [scInsert, if_neg hk]
      intro p hp
      rcases List.mem_cons.mp hp with rfl | hp
      · exact hq
      · exact ih ht p hp

lemma scOK_scStep (siteI contrastI fdrI : Nat) (kc : List String)
    (acc : List (Cell × List String)) (row : Row) (h : scOK kc acc) :
    scOK kc (scStep siteI contrastI fdrI kc acc row) := by
  by_cases hk : cellInStrs (cellAt row contrastI) kc = true
  · obtain ⟨c0, hcell, hkc⟩ := (cellInStrs_iff _ _).mp hk
    rw [scStep_eq_ins siteI contrastI fdrI kc acc row c0 hcell hkc]
    exact scOK_scInsert kc _ c0 _ hkc acc h
  · rw [scStep_eq_skip siteI contrastI fdrI kc acc row (by revert hk; cases cellInStrs (cellAt row contrastI) kc <;> simp)]
    exact h

lemma keysNodup_scStep (siteI contrastI fdrI : Nat) (kc : List String)
    (acc : List (Cell × List String)) (row : Row) (h : (keysOf acc).Nodup) :
    (keysOf (scStep siteI contrastI fdrI kc acc row)).Nodup := by
  by_cases hk : cellInStrs (cellAt row contrastI) kc = true
  · obtain ⟨c0, hcell, hkc⟩ := (cellInStrs_iff _ _).mp hk
    rw [scStep_eq_ins siteI contrastI fdrI kc acc row c0 hcell hkc]
    exact keysNodup_scInsert _ _ _ _ h
  · rw [scStep_eq_skip siteI contrastI fdrI kc acc row (by revert hk; cases cellInStrs (cellAt row contrastI) kc <;> simp)]
    exact h

lemma buildSC_go_memC (siteI contrastI fdrI : Nat) (kc : List String) :
    ∀ (rows : List Row) (acc : List (Cell × List String)) (s : Cell) (c : String),
      memC (rows.foldl (scStep siteI contrastI fdrI kc) acc) s c ↔
        memC acc s c ∨ (c ∈ kc ∧ fdrHit siteI contrastI fdrI rows s c) := by
  intro rows
  induction rows with
  | nil => intro acc s c; simp [fdrHit]
  | cons row rest ih =>
    intro acc s c
    rw [List.foldl_cons, ih, memC_scStep]
    unfold fdrHit
    simp only [List.mem_cons]
    constructor
    · rintro ((h | ⟨h1, h2, h3, h4⟩) | ⟨hkc, r, hr, hprop⟩)
      · exact Or.inl h
      · exact Or.inr ⟨h3, row, Or.inl rfl, h1, h2, h4⟩
      · exact Or.inr ⟨hkc, r, Or.inr hr, hprop⟩
    · rintro (h | ⟨hkc, r, (rfl | hr), hprop⟩)
      · exact Or.inl (Or.inl h)
      · exact Or.inl (Or.inr ⟨hprop.1, hprop.2.1, hkc, hprop.2.2⟩)
      · exact Or.inr ⟨hkc, r, hr, hprop⟩

lemma buildSC_memC (siteI contrastI fdrI : Nat) (kc : List String)
    (rows : List Row) (s : Cell) (c : String) :
    memC (buildSC siteI contrastI fdrI kc rows) s c ↔
      c ∈ kc ∧ fdrHit siteI contrastI fdrI rows s c := by
  unfold buildSC
  rw [buildSC_go_memC]
  simp [memC, alookup]

lemma buildSC_go_dom (siteI contrastI fdrI : Nat) (kc : List String) :
    ∀ (rows : List Row) (acc : List (Cell × List String)) (s : Cell),
      (alookup (rows.foldl (scStep siteI contrastI fdrI kc) acc) s).isSome ↔
        (alookup acc s).isSome ∨ keptHit siteI contrastI kc rows s := by
  intro rows
  induction rows with
  | nil => intro acc s; simp [keptHit]
  | cons row rest ih =>
    intro acc s
    rw [List.foldl_cons, ih, dom_scStep]
    unfold keptHit
    simp only [List.mem_cons]
    constructor
    · rintro ((h | ⟨h1, h2⟩) | ⟨r, hr, hprop⟩)
      · exact Or.inl h
      · exact Or.inr ⟨row, Or.inl rfl, h1, h2⟩
      · exact Or.inr ⟨r, Or.inr hr, hprop⟩
    · rintro (h | ⟨r, (rfl | hr), hprop⟩)
      · exact Or.inl (Or.inl h)
      · exact Or.inl (Or.inr hprop)
      · exact Or.inr ⟨r, hr, hprop⟩

lemma buildSC_dom (siteI contrastI fdrI : Nat) (kc : List String)
    (rows : List Row) (s : Cell) :
    (alookup (buildSC siteI contrastI fdrI kc rows) s).isSome ↔
      keptHit siteI contrastI kc rows s := by
  unfold buildSC
  rw [buildSC_go_dom]
  simp [alookup]

lemma buildSC_go_ok (siteI contrastI fdrI : Nat) (kc : List String) :
    ∀ (rows : List Row) (acc : List (Cell × List String)),
      scOK kc acc → scOK kc (rows.foldl (scStep siteI contrastI fdrI kc) acc) := by
  intro rows
  induction rows with
  | nil => intro acc h; exact h
  | cons row rest ih =>
    intro acc h
    rw [List.foldl_cons]
    exact ih _ (scOK_scStep _ _ _ _ _ _ h)

lemma buildSC_ok (siteI contrastI fdrI : Nat) (kc : List String) (rows : List Row) :
    scOK kc (buildSC siteI contrastI fdrI kc rows) :=
  buildSC_go_ok siteI contrastI fdrI kc rows [] (by intro p hp; simp at hp)

lemma buildSC_go_keysNodup (siteI contrastI fdrI : Nat) (kc : List String) :
    ∀ (rows : List Row) (acc : List (Cell × List String)),
      (keysOf acc).Nodup →
      (keysOf (rows.foldl (scStep siteI contrastI fdrI kc) acc)).Nodup := by
  intro rows
  induction rows with
  | nil => intro acc h; exact h
  | cons row rest ih =>
    intro acc h
    rw [List.foldl_cons]
    exact ih _ (keysNodup_scStep _ _ _ _ _ _ h)

lemma buildSC_keysNodup (siteI contrastI fdrI : Nat) (kc : List String)
    (rows : List Row) : (keysOf (buildSC siteI contrastI fdrI kc rows)).Nodup :=
  buildSC_go_keysNodup siteI contrastI fdrI kc rows [] (by simp [keysOf])

/-! ## Characterising the `site_meta` dict -/

lemma metaStep_eq (siteI revI conI swI modI protI : Nat)
    (acc : List (Cell × SiteMeta)) (row : Row) :
    metaStep siteI revI conI swI modI protI acc row =
      if validRow revI conI swI row then
        metaUpsert (cellAt row siteI) ⟨pyStr (cellAt row modI), cellAt row protI⟩ acc
      else acc := by
  by_cases h1 : isTrueFlag (cellAt row revI) = true
  · simp [metaStep, validRow, h1]
  · by_cases h2 : isTrueFlag (cellAt row conI) = true
    · simp [metaStep, validRow, h1, h2]
    · by_cases h3 : validSW (cellAt row swI) = true
      · simp [metaStep, validRow, h1, h2, h3]
      · simp [metaStep, validRow, h1, h2, h3]

lemma alookup_metaUpsert_self (s : Cell) (m : SiteMeta) :
    ∀ (l : List (Cell × SiteMeta)), alookup (metaUpsert s m l) s = some m := by
  intro l
  induction l with
  | nil => simp [metaUpsert, alookup]
  | cons p t ih =>
    obtain ⟨k, v⟩ := p
    by_cases hk : k = s
    · subst hk; simp [metaUpsert, alookup]
    · simp only [metaUpsert, if_neg hk, alookup, if_neg hk]
      exact ih

lemma alookup_metaUpsert_ne (s s' : Cell) (m : SiteMeta) (hne : s' ≠ s) :
    ∀ (l : List (Cell × SiteMeta)), alookup (metaUpsert s m l) s' = alookup l s' := by
  intro l
  induction l with
  | nil => simp [metaUpsert, alookup, Ne.symm hne]
  | cons p t ih =>
    obtain ⟨k, v⟩ := p
    by_cases hk : k = s
    · subst hk
      simp only [metaUpsert, if_pos rfl, alookup]
      rw [if_neg (fun h => hne h.symm), if_neg (fun h => hne h.symm)]
    · simp only [metaUpsert, if_neg hk, alookup]
      by_cases hk' : k = s'
      · simp [hk']
      · rw [if_neg hk', if_neg hk']
        exact ih

lemma buildMeta_go_dom (siteI revI conI swI modI protI : Nat) :
    ∀ (rows : List Row) (acc : List (Cell × SiteMeta)) (s : Cell),
      (alookup (rows.foldl (metaStep siteI revI conI swI modI protI) acc) s).isSome ↔
        (alookup acc s).isSome ∨
          ∃ row ∈ rows, validRow revI conI swI row ∧ cellAt row siteI = s := by
  intro rows
  induction rows with
  | nil => intro acc s; simp
  | cons row rest ih =>
    intro acc s
    rw [List.foldl_cons, ih, metaStep_eq]
    by_cases hv : validRow revI conI swI row
    · rw [if_pos hv]
      by_cases hsite : cellAt row siteI = s
      · rw [hsite, alookup_metaUpsert_self]
        constructor
        · intro _
          exact Or.inr ⟨row, List.mem_cons_self _ _, hv, hsite⟩
        · intro _
          exact Or.inl rfl
      · rw [alookup_metaUpsert_ne _ _ _ (fun h => hsite h.symm)]
        simp only [List.mem_cons]
        constructor
        · rintro (h | ⟨r, hr, hp⟩)
          · exact Or.inl h
          · exact Or.inr ⟨r, Or.inr hr, hp⟩
        · rintro (h | ⟨r, (rfl | hr), hp⟩)
          · exact Or.inl h
          · exact absurd hp.2 hsite
          · exact Or.inr ⟨r, hr, hp⟩
    · rw [if_neg hv]
      simp only [List.mem_cons]
      constructor
      · rintro (h | ⟨r, hr, hp⟩)
        · exact Or.inl h
        · exact Or.inr ⟨r, Or.inr hr, hp⟩
      · rintro (h | ⟨r, (rfl | hr), hp⟩)
        · exact Or.inl h
        · exact absurd hp.1 hv
        · exact Or.inr ⟨r, hr, hp⟩

lemma buildMeta_dom (siteI revI conI swI modI protI : Nat) (rows : List Row) (s : Cell) :
    (alookup (buildMeta siteI revI conI swI modI protI rows) s).isSome ↔
      ∃ row ∈ rows, validRow revI conI swI row ∧ cellAt row siteI = s := by
  unfold buildMeta
  rw [buildMeta_go_dom]
  simp [alookup]

/-! ## Membership in the candidate pools -/

lemma mem_completeList (sc : List (Cell × List String)) (meta : List (Cell × SiteMeta))
    (n : Nat) (s : Cell) (hnd : (keysOf sc).Nodup) :
    s ∈ completeList sc meta n ↔
      ∃ cs, alookup sc s = some cs ∧ (alookup meta s).isSome ∧ cs.length = n := by
  unfold completeList
  constructor
  · intro h
    obtain ⟨p, hp, hfst⟩ := List.mem_map.mp h
    obtain ⟨hmem, hcond⟩ := List.mem_filter.mp hp
    obtain ⟨s', cs⟩ := p
    cases hfst
    simp only [Bool.and_eq_true, decide_eq_true_eq] at hcond
    exact ⟨cs, mem_alookup_of_keysNodup hnd hmem, hcond.1, hcond.2⟩
  · rintro ⟨cs, hl, hsome, hlen⟩
    refine List.mem_map.mpr ⟨(s, cs), List.mem_filter.mpr ⟨alookup_eq_some_mem hl, ?_⟩, rfl⟩
    simp [hsome, hlen]

lemma mem_partListFor (sc : List (Cell × List String)) (meta : List (Cell × SiteMeta))
    (n : Nat) (c : String) (s : Cell) (hnd : (keysOf sc).Nodup) :
    s ∈ partListFor sc meta n c ↔
      ∃ cs, alookup sc s = some cs ∧ (alookup meta s).isSome ∧ cs.length ≠ n ∧ c ∈ cs := by
  unfold partListFor
  constructor
  · intro h
    obtain ⟨p, hp, hfst⟩ := List.mem_map.mp h
    obtain ⟨hmem, hcond⟩ := List.mem_filter.mp hp
    obtain ⟨s', cs⟩ := p
    cases hfst
    simp only [Bool.and_eq_true, decide_eq_true_eq] at hcond
    exact ⟨cs, mem_alookup_of_keysNodup hnd hmem, hcond.1.1, hcond.1.2, hcond.2⟩
  · rintro ⟨cs, hl, hsome, hlen, hc⟩
    refine List.mem_map.mpr ⟨(s, cs), List.mem_filter.mpr ⟨alookup_eq_some_mem hl, ?_⟩, rfl⟩
    simp [hsome, hlen, hc]

lemma completeList_nodup (sc : List (Cell × List String)) (meta : List (Cell × SiteMeta))
    (n : Nat) (hnd : (keysOf sc).Nodup) : (completeList sc meta n).Nodup := by
  have hsub : List.Sublist (completeList sc meta n) (keysOf sc) := by
    unfold completeList keysOf
    exact List.Sublist.map Prod.fst (List.filter_sublist sc)
  exact hnd.sublist hsub

lemma partListFor_nodup (sc : List (Cell × List String)) (meta : List (Cell × SiteMeta))
    (n : Nat) (c : String) (hnd : (keysOf sc).Nodup) : (partListFor sc meta n c).Nodup := by
  have hsub : List.Sublist (partListFor sc meta n c) (keysOf sc) := by
    unfold partListFor keysOf
    exact List.Sublist.map Prod.fst (List.filter_sublist sc)
  exact hnd.sublist hsub

/-! ## Invariants of the partial-site draw loop -/

lemma pickGo_sel_subset {σ : Type} (smp : Sampler σ) (nPer : Nat) :
    ∀ (l : List (String × List Cell)) (sel : Finset Cell) (st : σ),
      sel ⊆ (pickGo smp nPer l sel st).1 := by
  intro l
  induction l with
  | nil => intro sel st; exact Finset.Subset.refl sel
  | cons p rest ih =>
    intro sel st
    obtain ⟨c, sites⟩ := p
    unfold pickGo
    by_cases h : 0 < min nPer (sites.filter (fun s => decide (s ∉ sel))).length
    · rw [if_pos h]
      exact Finset.Subset.trans (Finset.subset_union_left) (ih _ _)
    · rw [if_neg h]
      exact ih _ _

lemma pickGo_mem {σ : Type} (smp : Sampler σ) (hgood : GoodSampler smp) (nPer : Nat) :
    ∀ (l : List (String × List Cell)) (sel : Finset Cell) (st : σ) (x : Cell),
      x ∈ (pickGo smp nPer l sel st).1 → x ∈ sel ∨ ∃ p ∈ l, x ∈ p.2 := by
  intro l
  induction l with
  | nil => intro sel st x hx; exact Or.inl hx
  | cons p rest ih =>
    intro sel st x hx
    obtain ⟨c, sites⟩ := p
    unfold pickGo at hx
    by_cases h : 0 < min nPer (sites.filter (fun s => decide (s ∉ sel))).length
    · rw [if_pos h] at hx
      rcases ih _ _ _ hx with hx' | ⟨q, hq, hxq⟩
      · rcases Finset.mem_union.mp hx' with hsel | hpick
        · exact Or.inl hsel
        · have hpick' := List.mem_toFinset.mp hpick
          have hsubset := (hgood st (sites.filter (fun s => decide (s ∉ sel)))
            (min nPer (sites.filter (fun s => decide (s ∉ sel))).length)
            (Nat.min_le_right _ _)).2.1
          have hmem := hsubset x hpick'
          exact Or.inr ⟨(c, sites), List.mem_cons_self _ _,
            (List.mem_filter.mp hmem).1⟩
      · exact Or.inr ⟨q, List.mem_cons_of_mem _ hq, hxq⟩
    · rw [if_neg h] at hx
      rcases ih _ _ _ hx with hx' | ⟨q, hq, hxq⟩
      · exact Or.inl hx'
      · exact Or.inr ⟨q, List.mem_cons_of_mem _ hq, hxq⟩

lemma pickGo_inter {σ : Type} (smp : Sampler σ) (hgood : GoodSampler smp) (nPer : Nat)
    (K : Finset Cell) :
    ∀ (l : List (String × List Cell)) (sel : Finset Cell) (st : σ),
      (∀ p ∈ l, ∀ x ∈ p.2, x ∉ K) →
      (pickGo smp nPer l sel st).1 ∩ K = sel ∩ K := by
  intro l
  induction l with
  | nil => intro sel st _; rfl
  | cons p rest ih =>
    intro sel st hdisj
    obtain ⟨c, sites⟩ := p
    unfold pickGo
    have hdisj' : ∀ p ∈ rest, ∀ x ∈ p.2, x ∉ K :=
      fun q hq => hdisj q (List.mem_cons_of_mem _ hq)
    by_cases h : 0 < min nPer (sites.filter (fun s => decide (s ∉ sel))).length
    · rw [if_pos h]
      rw [ih _ _ hdisj']
      have hpick : ∀ x ∈ (smp.run st (sites.filter (fun s => decide (s ∉ sel)))
          (min nPer (sites.filter (fun s => decide (s ∉ sel))).length)).1, x ∉ K := by
        intro x hx
        have hsubset := (hgood st (sites.filter (fun s => decide (s ∉ sel)))
          (min nPer (sites.filter (fun s => decide (s ∉ sel))).length)
          (Nat.min_le_right _ _)).2.1
        have hmem := hsubset x hx
        exact hdisj (c, sites) (List.mem_cons_self _ _) x (List.mem_filter.mp hmem).1
      rw [Finset.union_inter_distrib_right]
      have hempty : (smp.run st (sites.filter (fun s => decide (s ∉ sel)))
          (min nPer (sites.filter (fun s => decide (s ∉ sel))).length)).1.toFinset ∩ K = ∅ := by
        apply Finset.eq_empty_of_forall_not_mem
        intro x hx
        obtain ⟨hx1, hx2⟩ := Finset.mem_inter.mp hx
        exact hpick x (List.mem_toFinset.mp hx1) hx2
      rw [hempty, Finset.union_empty]
    · rw [if_neg h]
      exact ih _ _ hdisj'

lemma pickGo_card {σ : Type} (smp : Sampler σ) (hgood : GoodSampler smp) (nPer : Nat) :
    ∀ (l : List (String × List Cell)) (sel : Finset Cell) (st : σ),
      (pickGo smp nPer l sel st).1.card ≤ sel.card + l.length * nPer := by
  intro l
  induction l with
  | nil => intro sel st; simp [pickGo]
  | cons p rest ih =>
    intro sel st
    obtain ⟨c, sites⟩ := p
    unfold pickGo
    by_cases h : 0 < min nPer (sites.filter (fun s => decide (s ∉ sel))).length
    · rw [if_pos h]
      have h1 := ih (sel ∪ (smp.run st (sites.filter (fun s => decide (s ∉ sel)))
        (min nPer (sites.filter (fun s => decide (s ∉ sel))).length)).1.toFinset)
        ((smp.run st (sites.filter (fun s => decide (s ∉ sel)))
          (min nPer (sites.filter (fun s => decide (s ∉ sel))).length)).2)
      have h2 : (sel ∪ (smp.run st (sites.filter (fun s => decide (s ∉ sel)))
          (min nPer (sites.filter (fun s => decide (s ∉ sel))).length)).1.toFinset).card ≤
          sel.card + nPer := by
        have hlen := (hgood st (sites.filter (fun s => decide (s ∉ sel)))
          (min nPer (sites.filter (fun s => decide (s ∉ sel))).length)
          (Nat.min_le_right _ _)).1
        calc (sel ∪ _).card ≤ sel.card + _ := Finset.card_union_le _ _
          _ ≤ sel.card + nPer := by
            have := List.toFinset_card_le (smp.run st (sites.filter (fun s => decide (s ∉ sel)))
              (min nPer (sites.filter (fun s => decide (s ∉ sel))).length)).1
            rw [hlen] at this
            exact Nat.add_le_add_left (le_trans this (Nat.min_le_left _ _)) _
      have h3 := le_trans h1 (Nat.add_le_add_right h2 _)
      have h4 : (sel.card + nPer) + rest.length * nPer = sel.card + (rest.length + 1) * nPer := by
        ring
      rw [h4] at h3
      simpa [List.length_cons] using h3
    · rw [if_neg h]
      have hfin : (pickGo smp nPer rest sel st).1.card ≤ sel.card + (rest.length + 1) * nPer := by
        calc (pickGo smp nPer rest sel st).1.card
            ≤ sel.card + rest.length * nPer := ih _ _
          _ ≤ sel.card + (rest.length + 1) * nPer := by
              exact Nat.add_le_add_left (Nat.mul_le_mul_right _ (Nat.le_succ _)) _
      simpa [List.length_cons] using hfin

/-! ## Unfolding the monadic pipeline -/

lemma ok_bind {α β : Type} (a : α) (f : α → Except Err β) :
    (Except.ok a >>= f) = f a := rfl

lemma bindE_ok {α β : Type} {x : Except Err α} {f : α → Except Err β} {r : β}
    (h : (x >>= f) = Except.ok r) : ∃ a, x = Except.ok a ∧ f a = Except.ok r := by
  cases x with
  | error e =>
    exact absurd h (by simp [Bind.bind, Except.bind])
  | ok a =>
    exact ⟨a, rfl, by rw [← ok_bind a f]; exact h⟩

lemma pyDiv_ok {a b q : Nat} (h : pyDiv a b = Except.ok q) : b ≠ 0 ∧ q = a / b := by
  unfold pyDiv at h
  by_cases hb : b = 0
  · rw [if_pos hb] at h; cases h
  · rw [if_neg hb] at h
    exact ⟨hb, (Except.ok.inj h).symm⟩

lemma pyDiv_eq_ok {a b : Nat} (h : b ≠ 0) : pyDiv a b = Except.ok (a / b) := by
  unfold pyDiv
  rw [if_neg h]

lemma selParts_eq (wb : Workbook) (kc : List String) (g g2 : Grid)
    (siteI contrastI fdrI wSiteI wRevI wConI wSwI wModI wProtI : Nat)
    (hg : getSheet wb "diff_exp_analysis" = Except.ok g)
    (h1 : exIdx (headOf g) "site" = Except.ok siteI)
    (h2 : exIdx (headOf g) "contrast" = Except.ok contrastI)
    (h3 : exIdx (headOf g) "FDR" = Except.ok fdrI)
    (hg2 : getSheet wb "diff_exp_analysis_wide" = Except.ok g2)
    (h4 : exIdx (headOf g2) "site" = Except.ok wSiteI)
    (h5 : exIdx (headOf g2) "REV" = Except.ok wRevI)
    (h6 : exIdx (headOf g2) "CON" = Except.ok wConI)
    (h7 : exIdx (headOf g2) "SequenceWindow" = Except.ok wSwI)
    (h8 : exIdx (headOf g2) "modAA" = Except.ok wModI)
    (h9 : exIdx (headOf g2) "protein_Id" = Except.ok wProtI) :
    selParts wb kc =
      Except.ok
        ⟨completeList (buildSC siteI contrastI fdrI kc (tailRows g))
            (buildMeta wSiteI wRevI wConI wSwI wModI wProtI (tailRows g2)) kc.length,
         (firstDedup kc).map (fun c =>
           (c, partListFor (buildSC siteI contrastI fdrI kc (tailRows g))
                 (buildMeta wSiteI wRevI wConI wSwI wModI wProtI (tailRows g2)) kc.length c)),
         buildMeta wSiteI wRevI wConI wSwI wModI wProtI (tailRows g2)⟩ := by
  unfold selParts
  rw [hg, ok_bind, h1, ok_bind, h2, ok_bind, h3, ok_bind, hg2, ok_bind,
    h4, ok_bind, h5, ok_bind, h6, ok_bind, h7, ok_bind, h8, ok_bind, h9, ok_bind]
  rfl

lemma selParts_ok_inv {wb : Workbook} {kc : List String} {P : SelParts}
    (hP : selParts wb kc = Except.ok P) :
    ∃ g g2 siteI contrastI fdrI wSiteI wRevI wConI wSwI wModI wProtI,
      getSheet wb "diff_exp_analysis" = Except.ok g ∧
      exIdx (headOf g) "site" = Except.ok siteI ∧
      exIdx (headOf g) "contrast" = Except.ok contrastI ∧
      exIdx (headOf g) "FDR" = Except.ok fdrI ∧
      getSheet wb "diff_exp_analysis_wide" = Except.ok g2 ∧
      exIdx (headOf g2) "site" = Except.ok wSiteI ∧
      exIdx (headOf g2) "REV" = Except.ok wRevI ∧
      exIdx (headOf g2) "CON" = Except.ok wConI ∧
      exIdx (headOf g2) "SequenceWindow" = Except.ok wSwI ∧
      exIdx (headOf g2) "modAA" = Except.ok wModI ∧
      exIdx (headOf g2) "protein_Id" = Except.ok wProtI ∧
      P = ⟨completeList (buildSC siteI contrastI fdrI kc (tailRows g))
              (buildMeta wSiteI wRevI wConI wSwI wModI wProtI (tailRows g2)) kc.length,
           (firstDedup kc).map (fun c =>
             (c, partListFor (buildSC siteI contrastI fdrI kc (tailRows g))
                   (buildMeta wSiteI wRevI wConI wSwI wModI wProtI (tailRows g2)) kc.length c)),
           buildMeta wSiteI wRevI wConI wSwI wModI wProtI (tailRows g2)⟩ := by
  unfold selParts at hP
  obtain ⟨g, hg, hP⟩ := bindE_ok hP
  obtain ⟨siteI, h1, hP⟩ := bindE_ok hP
  obtain ⟨contrastI, h2, hP⟩ := bindE_ok hP
  obtain ⟨fdrI, h3, hP⟩ := bindE_ok hP
  obtain ⟨g2, hg2, hP⟩ := bindE_ok hP
  obtain ⟨wSiteI, h4, hP⟩ := bindE_ok hP
  obtain ⟨wRevI, h5, hP⟩ := bindE_ok hP
  obtain ⟨wConI, h6, hP⟩ := bindE_ok hP
  obtain ⟨wSwI, h7, hP⟩ := bindE_ok hP
  obtain ⟨wModI, h8, hP⟩ := bindE_ok hP
  obtain ⟨wProtI, h9, hP⟩ := bindE_ok hP
  refine ⟨g, g2, siteI, contrastI, fdrI, wSiteI, wRevI, wConI, wSwI, wModI, wProtI,
    hg, h1, h2, h3, hg2, h4, h5, h6, h7, h8, h9, ?_⟩
  exact (Except.ok.inj hP).symm

lemma selectPhosphosites_ok {σ : Type} (smp : Sampler σ) (st : σ) (wb : Workbook)
    (n : Nat) (kc : List String) (P : SelParts)
    (hP : selParts wb kc = Except.ok P) (hk : kc ≠ []) :
    selectPhosphosites smp st wb n kc = Except.ok (selResult smp st n kc P) := by
  have hlen : kc.length ≠ 0 := fun h => hk (List.length_eq_zero.mp h)
  unfold selectPhosphosites
  rw [hP, ok_bind]
  simp only [pyDiv_eq_ok hlen, ok_bind]
  rfl

lemma selectPhosphosites_err_nil {σ : Type} (smp : Sampler σ) (st : σ) (wb : Workbook)
    (n : Nat) (P : SelParts) (hP : selParts wb [] = Except.ok P) :
    selectPhosphosites smp st wb n [] = Except.error Err.zeroDivision := by
  unfold selectPhosphosites
  rw [hP, ok_bind]
  rfl

lemma selectPhosphosites_ok_inv {σ : Type} {smp : Sampler σ} {st : σ} {wb : Workbook}
    {n : Nat} {kc : List String} {r : Finset Cell × Finset Cell × σ}
    (h : selectPhosphosites smp st wb n kc = Except.ok r) :
    ∃ P, selParts wb kc = Except.ok P ∧ kc ≠ [] ∧ r = selResult smp st n kc P := by
  unfold selectPhosphosites at h
  obtain ⟨P, hP, h⟩ := bindE_ok h
  obtain ⟨q, hq, h⟩ := bindE_ok h
  obtain ⟨hlen, hqv⟩ := pyDiv_ok hq
  refine ⟨P, hP, fun hnil => hlen (by rw [hnil]; rfl), ?_⟩
  subst hqv
  exact (Except.ok.inj h).symm

/-! ## Consequences of a successful candidate-pool construction -/

lemma selParts_complete_nodup {wb : Workbook} {kc : List String} {P : SelParts}
    (hP : selParts wb kc = Except.ok P) : P.complete.Nodup := by
  obtain ⟨g, g2, siteI, contrastI, fdrI, a, b, c, d, e, f,
    _, _, _, _, _, _, _, _, _, _, _, hPeq⟩ := selParts_ok_inv hP
  subst hPeq
  exact completeList_nodup _ _ _ (buildSC_keysNodup _ _ _ _ _)

lemma selParts_partial_disjoint {wb : Workbook} {kc : List String} {P : SelParts}
    (hP : selParts wb kc = Except.ok P) :
    ∀ p ∈ P.partLists, ∀ s ∈ p.2, s ∉ P.complete := by
  obtain ⟨g, g2, siteI, contrastI, fdrI, a, b, c, d, e, f,
    _, _, _, _, _, _, _, _, _, _, _, hPeq⟩ := selParts_ok_inv hP
  subst hPeq
  intro p hp s hs hmem
  obtain ⟨c0, hc0, hpeq⟩ := List.mem_map.mp hp
  subst hpeq
  simp only at hs
  have hnd := buildSC_keysNodup siteI contrastI fdrI kc (tailRows g)
  obtain ⟨cs, hcs, _, hlen, _⟩ := (mem_partListFor _ _ _ _ _ hnd).mp hs
  obtain ⟨cs', hcs', _, hlen'⟩ := (mem_completeList _ _ _ _ hnd).mp hmem
  rw [hcs] at hcs'
  exact hlen (Option.some.inj hcs' ▸ hlen')

lemma selParts_sel_meta {wb : Workbook} {kc : List String} {P : SelParts}
    (hP : selParts wb kc = Except.ok P) :
    (∀ s ∈ P.complete, (alookup P.meta s).isSome) ∧
    (∀ p ∈ P.partLists, ∀ s ∈ p.2, (alookup P.meta s).isSome) := by
  obtain ⟨g, g2, siteI, contrastI, fdrI, a, b, c, d, e, f,
    _, _, _, _, _, _, _, _, _, _, _, hPeq⟩ := selParts_ok_inv hP
  subst hPeq
  have hnd := buildSC_keysNodup siteI contrastI fdrI kc (tailRows g)
  constructor
  · intro s hs
    obtain ⟨cs, _, hsome, _⟩ := (mem_completeList _ _ _ _ hnd).mp hs
    exact hsome
  · intro p hp s hs
    obtain ⟨c0, hc0, hpeq⟩ := List.mem_map.mp hp
    subst hpeq
    simp only at hs
    obtain ⟨cs, _, hsome, _, _⟩ := (mem_partListFor _ _ _ _ _ hnd).mp hs
    exact hsome

lemma validSW_length {c : Cell} (h : validSW c = true) : 7 ≤ (pyStr c).length := by
  unfold validSW at h
  simp only [Bool.and_eq_true, decide_eq_true_eq] at h
  exact h.2

lemma goodTake : GoodSampler takeSmp := by
  intro st l k hk
  refine ⟨?_, ?_, ?_⟩
  · simpa [takeSmp] using Nat.min_eq_left hk
  · intro x hx
    exact List.take_subset _ _ (by simpa [takeSmp] using hx)
  · intro h
    simpa [takeSmp] using h.sublist (List.take_sublist _ _)

lemma selected_meta_isSome {σ : Type} {smp : Sampler σ} (hgood : GoodSampler smp)
    {st : σ} {wb : Workbook} {n : Nat} {kc : List String} {P : SelParts}
    {sel prots : Finset Cell} {st2 : σ}
    (hP : selParts wb kc = Except.ok P)
    (hsel : selectPhosphosites smp st wb n kc = Except.ok (sel, prots, st2)) :
    ∀ s ∈ sel, (alookup P.meta s).isSome := by
  obtain ⟨P', hP', hk, hr⟩ := selectPhosphosites_ok_inv hsel
  obtain rfl : P = P' := Except.ok.inj (hP.symm.trans hP')
  intro s hs
  have h1 : sel = (pickGo smp (nPerOf n kc P) P.partLists
      ((smp.run st P.complete (nCompleteOf n P)).1.toFinset)
      ((smp.run st P.complete (nCompleteOf n P)).2)).1 :=
    congrArg (fun x => x.1) hr
  rw [h1] at hs
  rcases pickGo_mem smp hgood _ _ _ _ s hs with hcomp | ⟨p, hp, hsp⟩
  · refine (selParts_sel_meta hP).1 s ?_
    exact (hgood st P.complete (nCompleteOf n P) (Nat.min_le_right _ _)).2.1 s
      (List.mem_toFinset.mp hcomp)
  · exact (selParts_sel_meta hP).2 p hp s hsp

lemma nodup_firstDedup (l : List String) : (firstDedup l).Nodup :=
  nodup_firstDedupGo l []

lemma complete_len_iff (siteI contrastI fdrI : Nat) (kc : List String) (rows : List Row)
    (hkc : kc.Nodup) (s : Cell) (cs : List String)
    (hcs : alookup (buildSC siteI contrastI fdrI kc rows) s = some cs) :
    cs.length = kc.length ↔ ∀ c' ∈ kc, fdrHit siteI contrastI fdrI rows s c' := by
  have hok := buildSC_ok siteI contrastI fdrI kc rows (s, cs) (alookup_eq_some_mem hcs)
  have hmemc : ∀ c', c' ∈ cs ↔ (c' ∈ kc ∧ fdrHit siteI contrastI fdrI rows s c') := by
    intro c'
    rw [← buildSC_memC siteI contrastI fdrI kc rows s c']
    unfold memC
    constructor
    · intro h; exact ⟨cs, hcs, h⟩
    · rintro ⟨cs', hcs', h⟩
      rw [hcs] at hcs'
      obtain rfl : cs = cs' := Option.some.inj hcs'
      exact h
  constructor
  · intro hlen c' hc'
    have hsub : cs.toFinset ⊆ kc.toFinset := fun x hx =>
      List.mem_toFinset.mpr (hok.2 x (List.mem_toFinset.mp hx))
    have hcards : kc.toFinset.card ≤ cs.toFinset.card := by
      rw [List.toFinset_card_of_nodup hok.1, List.toFinset_card_of_nodup hkc, hlen]
    have heq := Finset.eq_of_subset_of_card_le hsub hcards
    have hin : c' ∈ cs := by
      have hm := List.mem_toFinset.mpr hc'
      rw [← heq] at hm
      exact List.mem_toFinset.mp hm
    exact ((hmemc c').mp hin).2
  · intro hall
    have hsub2 : ∀ c' ∈ kc, c' ∈ cs := fun c' hc' => (hmemc c').mpr ⟨hc', hall c' hc'⟩
    have h1 : cs.toFinset = kc.toFinset := by
      apply Finset.Subset.antisymm
      · exact fun x hx => List.mem_toFinset.mpr (hok.2 x (List.mem_toFinset.mp hx))
      · exact fun x hx => List.mem_toFinset.mpr (hsub2 x (List.mem_toFinset.mp hx))
    calc cs.length = cs.toFinset.card := (List.toFinset_card_of_nodup hok.1).symm
      _ = kc.toFinset.card := by rw [h1]
      _ = kc.length := List.toFinset_card_of_nodup hkc

lemma slookup_supsert_self :
    ∀ (l : List (String × SheetData)) (n : String) (v : SheetData),
      slookup (supsert l n v) n = some v := by
  intro l
  induction l with
  | nil => intro n v; simp [supsert, slookup]
  | cons p t ih =>
    intro n v
    obtain ⟨k, w⟩ := p
    by_cases hk : k = n
    · subst hk; simp [supsert, slookup]
    · simp only [supsert, if_neg hk, slookup, if_neg hk]
      exact ih n v

lemma slookup_supsert_ne :
    ∀ (l : List (String × SheetData)) (n m : String) (v : SheetData), m ≠ n →
      slookup (supsert l n v) m = slookup l m := by
  intro l
  induction l with
  | nil => intro n m v hne; simp [supsert, slookup, Ne.symm hne]
  | cons p t ih =>
    intro n m v hne
    obtain ⟨k, w⟩ := p
    by_cases hk : k = n
    · subst hk
      simp only [supsert, if_pos rfl, slookup]
      rw [if_neg (fun h => hne h.symm), if_neg (fun h => hne h.symm)]
    · simp only [supsert, if_neg hk, slookup]
      by_cases hk' : k = m
      · simp [hk']
      · rw [if_neg hk', if_neg hk']
        exact ih n m v hne

lemma annotRow_ok (fns ks : List String) (r : List String) (hC : "Contrast" ∈ fns) :
    annotRow fns ks r = Except.ok (rewriteRow fns ks r) := by
  unfold annotRow rewriteRow
  by_cases hcond : annotCond fns ks r
  · have hcond' := hcond
    unfold annotCond at hcond'
    rw [if_pos hcond', if_pos hC, if_pos hcond]
  · have hcond' := hcond
    unfold annotCond at hcond'
    rw [if_neg hcond', if_neg hcond]

lemma mapE_map {α β : Type} (f : α → Except Err β) (g : α → β) :
    ∀ (l : List α), (∀ x ∈ l, f x = Except.ok (g x)) →
      mapE f l = Except.ok (l.map g) := by
  intro l
  induction l with
  | nil => intro _; rfl
  | cons x t ih =>
    intro h
    have hx := h x (List.mem_cons_self _ _)
    have ht := ih (fun y hy => h y (List.mem_cons_of_mem _ hy))
    unfold mapE
    rw [hx, ok_bind, ht, ok_bind]
    rfl

lemma getD_set_ne (l : List String) (i j : Nat) (v : String) (h : j ≠ i) :
    (l.set i v).getD j "" = l.getD j "" := by
  induction l generalizing i j with
  | nil => simp
  | cons a t ih =>
    cases i with
    | zero =>
      cases j with
      | zero => exact absurd rfl h
      | succ j' => simp [List.set, List.getD]
    | succ i' =>
      cases j with
      | zero => simp [List.set, List.getD]
      | succ j' =>
        simp only [List.set, List.getD_cons_succ]
        exact ih i' j' (fun hh => h (by rw [hh]))

lemma filterSheet_wide_error (entityKey : String) (keep : Finset Cell)
    (kc : List String) (name : String) (g : Grid)
    (hname : name ∈ entityWideNames)
    (hmiss : hIndex (headOf g) entityKey = Option.none) :
    filterSheet entityKey keep kc name g = Except.error Err.valueError := by
  have hscript : ∀ nm : String, nm = name →
      ¬ (nm = "annotation" ∨ nm = "formula") → ¬ nm = "summary" → ¬ nm = "contrasts" →
      ¬ nm = "diff_exp_analysis" → nm ∈ entityWideNames →
      filterSheet entityKey keep kc nm g = Except.error Err.valueError := by
    intro nm _ hn1 hn2 hn3 hn4 hn5
    simp only [filterSheet]
    rw [if_neg hn1, if_neg hn2, if_neg hn3, if_neg hn4, if_pos hn5]
    unfold exIdx
    rw [hmiss]
    rfl
  simp only [entityWideNames, List.mem_cons, List.mem_singleton] at hname
  rcases hname with rfl | rfl | rfl | rfl | rfl | rfl | rfl | rfl | rfl | h
  all_goals first
  | exact hscript _ rfl (by decide) (by decide) (by decide) (by decide) (by decide)
  | cases h

lemma mapSheetsE_error (f : String → Grid → Except Err SheetData) :
    ∀ (wb : Workbook) (name : String) (g : Grid) (e : Err),
      (name, g) ∈ wb → f name g = Except.error e →
      ∃ e', mapSheetsE f wb = Except.error e' := by
  intro wb
  induction wb with
  | nil => intro name g e h _; simp at h
  | cons p t ih =>
    intro name g e hmem hf
    obtain ⟨n', g'⟩ := p
    rcases List.mem_cons.mp hmem with heq | hmem'
    · obtain ⟨h1, h2⟩ := Prod.ext_iff.mp heq
      simp only at h1 h2
      subst h1
      subst h2
      refine ⟨e, ?_⟩
      unfold mapSheetsE
      rw [hf]
      rfl
    · cases hfh : f n' g' with
      | error e'' =>
        refine ⟨e'', ?_⟩
        unfold mapSheetsE
        rw [hfh]
        rfl
      | ok s =>
        obtain ⟨e', ht⟩ := ih name g e hmem' hf
        refine ⟨e', ?_⟩
        unfold mapSheetsE
        rw [hfh, ok_bind, ht]
        rfl

lemma pickGo_rec_state (nPer : Nat) :
    ∀ (l : List (String × List Cell)) (sel : Finset Cell)
      (st : List (List Cell × Nat)),
      ∃ extra, (pickGo recSmp nPer l sel st).2 = st ++ extra ∧
        extra.length ≤ l.length := by
  intro l
  induction l with
  | nil =>
    intro sel st
    exact ⟨[], by simp [pickGo], by simp⟩
  | cons p rest ih =>
    intro sel st
    obtain ⟨c, sites⟩ := p
    unfold pickGo
    by_cases h : 0 < min nPer (sites.filter (fun s => decide (s ∉ sel))).length
    · rw [if_pos h]
      obtain ⟨ex, heq, hlen⟩ := ih
        (sel ∪ ((sites.filter (fun s => decide (s ∉ sel))).take
          (min nPer (sites.filter (fun s => decide (s ∉ sel))).length)).toFinset)
        (st ++ [(sites.filter (fun s => decide (s ∉ sel)),
          min nPer (sites.filter (fun s => decide (s ∉ sel))).length)])
      refine ⟨(sites.filter (fun s => decide (s ∉ sel)),
        min nPer (sites.filter (fun s => decide (s ∉ sel))).length) :: ex, ?_, ?_⟩
      · show (pickGo recSmp nPer rest
            (sel ∪ (List.take (min nPer (sites.filter (fun s => decide (s ∉ sel))).length)
              (sites.filter (fun s => decide (s ∉ sel)))).toFinset)
            (st ++ [(sites.filter (fun s => decide (s ∉ sel)),
              min nPer (sites.filter (fun s => decide (s ∉ sel))).length)])).2 =
          st ++ (sites.filter (fun s => decide (s ∉ sel)),
            min nPer (sites.filter (fun s => decide (s ∉ sel))).length) :: ex
        rw [heq, List.append_assoc]
        rfl
      · simp only [List.length_cons, List.length_cons]
        exact Nat.succ_le_succ hlen
    · rw [if_neg h]
      obtain ⟨ex, heq, hlen⟩ := ih sel st
      exact ⟨ex, heq, le_trans hlen (Nat.le_succ _)⟩

/-! ## Claim theorems -/

/-- C8: a workbook containing a sheet with an entity-keyed wide role
whose header lacks the entity-key column (`site` for the phospho filter,
`protein_Id` for the protein filter) makes the multi-sheet filter raise
an error instead of returning a result; the sheet is never silently
passed through. -/
theorem claim8_missing_key_error :
    (∀ (wb : Workbook) (ks : Finset Cell) (kc : List String) (name : String) (g : Grid),
      (name, g) ∈ wb → name ∈ entityWideNames →
      hIndex (headOf g) "site" = Option.none →
      ∃ e, filterPhosphoXlsx wb ks kc = Except.error e) ∧
    (∀ (wb : Workbook) (kp : Finset Cell) (kc : List String) (name : String) (g : Grid),
      (name, g) ∈ wb → name ∈ entityWideNames →
      hIndex (headOf g) "protein_Id" = Option.none →
      ∃ e, filterProteinXlsx wb kp kc = Except.error e) := by
  constructor
  · intro wb ks kc name g hmem hname hmiss
    obtain ⟨e', hmap⟩ := mapSheetsE_error (filterSheet "site" ks kc) wb name g
      Err.valueError hmem (filterSheet_wide_error "site" ks kc name g hname hmiss)
    refine ⟨e', ?_⟩
    unfold filterPhosphoXlsx
    rw [hmap]
    rfl
  · intro wb kp kc name g hmem hname hmiss
    obtain ⟨e', hmap⟩ := mapSheetsE_error (filterSheet "protein_Id" kp kc) wb name g
      Err.valueError hmem (filterSheet_wide_error "protein_Id" kp kc name g hname hmiss)
    refine ⟨e', ?_⟩
    unfold filterProteinXlsx
    rw [hmap]
    rfl

/-- C8 witness: both filters fail on `wbBad`, whose wide sheet has
neither a `site` nor a `protein_Id` column. -/
theorem claim8_witness :
    (∃ e, filterPhosphoXlsx wbBad (∅ : Finset Cell) [] = Except.error e) ∧
    (∃ e, filterProteinXlsx wbBad (∅ : Finset Cell) [] = Except.error e) :=
  ⟨claim8_missing_key_error.1 wbBad ∅ [] "diff_exp_analysis_wide"
      [[Cell.str "foo"]] (by decide) (by decide) (by decide),
   claim8_missing_key_error.2 wbBad ∅ [] "diff_exp_analysis_wide"
      [[Cell.str "foo"]] (by decide) (by decide) (by decide)⟩

/-- C9: the pipeline is a pure function of the sampler, the seed state
and the inputs — equal seeds give equal outputs — and the single random
source is consumed in a fixed order: the recording sampler's trace
starts with the complete-sample request `(complete_sites, n_complete)`
and is followed by at most one request per kept contrast, issued while
folding the contrasts in their list order. -/
theorem claim9_deterministic_consumption :
    (∀ (σ : Type) (smp : Sampler σ) (st1 st2 : σ) (phWb prWb : Workbook) (n : Nat)
      (kc : List String), st1 = st2 →
      runSelect smp st1 phWb prWb n kc = runSelect smp st2 phWb prWb n kc) ∧
    (∀ (wb : Workbook) (n : Nat) (kc : List String) (P : SelParts),
      selParts wb kc = Except.ok P → kc ≠ [] →
      ∃ sel prots tr, selectPhosphosites recSmp [] wb n kc =
          Except.ok (sel, prots, tr) ∧
        tr.head? = some (P.complete, nCompleteOf n P) ∧
        tr.length ≤ 1 + P.partLists.length) := by
  constructor
  · intro σ smp st1 st2 phWb prWb n kc h
    rw [h]
  · intro wb n kc P hP hk
    have hok := selectPhosphosites_ok recSmp [] wb n kc P hP hk
    refine ⟨(selResult recSmp [] n kc P).1, (selResult recSmp [] n kc P).2.1,
      (selResult recSmp [] n kc P).2.2, hok, ?_, ?_⟩
    · obtain ⟨ex, heq, _⟩ := pickGo_rec_state (nPerOf n kc P) P.partLists
        ((P.complete.take (nCompleteOf n P)).toFinset)
        [(P.complete, nCompleteOf n P)]
      have h2 : (selResult recSmp [] n kc P).2.2 =
          [(P.complete, nCompleteOf n P)] ++ ex := heq
      rw [h2]
      rfl
    · obtain ⟨ex, heq, hlen⟩ := pickGo_rec_state (nPerOf n kc P) P.partLists
        ((P.complete.take (nCompleteOf n P)).toFinset)
        [(P.complete, nCompleteOf n P)]
      have h2 : (selResult recSmp [] n kc P).2.2 =
          [(P.complete, nCompleteOf n P)] ++ ex := heq
      rw [h2]
      simp only [List.length_append, List.length_singleton]
      exact Nat.add_le_add_left hlen 1

/-- C9 witness: two identically-seeded runs on `wbW`/`wbProt` coincide,
and on `wbW` the recording sampler's first request is the complete
sample `([s1, s2], 1)` with at most one further request. -/
theorem claim9_witness :
    runSelect takeSmp () wbW wbProt 1 ["X"] =
      runSelect takeSmp () wbW wbProt 1 ["X"] ∧
    ∃ sel prots tr, selectPhosphosites recSmp [] wbW 1 ["X"] =
        Except.ok (sel, prots, tr) ∧
      tr.head? = some (partsW.complete, nCompleteOf 1 partsW) ∧
      tr.length ≤ 1 + partsW.partLists.length :=
  ⟨claim9_deterministic_consumption.1 Unit takeSmp () () wbW wbProt 1 ["X"] rfl,
   claim9_deterministic_consumption.2 wbW 1 ["X"] partsW (by decide) (by decide)⟩

/-- C6: the summary sheet of a filtered workbook is recomputed from the
filtered entity-keyed wide sheet alone — its row holds the filtered row
count, the contaminant and decoy percentages, and the net count — and on
an empty filtered wide sheet all four counters are 0 with no division
performed. -/
theorem claim6_summary_recomputed (wb : Workbook) (ks : Finset Cell) (kc : List String)
    (sheets : List (String × SheetData))
    (h : filterPhosphoXlsx wb ks kc = Except.ok sheets) :
    ∃ wh wr, slookup sheets "diff_exp_analysis_wide" = some (wh, wr) ∧
      slookup sheets "summary" = some (summarySheet wh wr) ∧
      (summarySheet wh wr).2 =
        [[Cell.int wr.length,
          pctCell (flagCountOpt wr (hIndex wh "CON")) wr.length,
          pctCell (flagCountOpt wr (hIndex wh "REV")) wr.length,
          Cell.int ((wr.length : Int) - (flagCountOpt wr (hIndex wh "REV") : Int) -
            (flagCountOpt wr (hIndex wh "CON") : Int))]] ∧
      (wr = [] → (summarySheet wh wr).2 =
        [[Cell.int 0, Cell.int 0, Cell.int 0, Cell.int 0]]) := by
  unfold filterPhosphoXlsx at h
  obtain ⟨sheets0, hmap, hupd⟩ := bindE_ok h
  unfold updateSummaryE at hupd
  cases hsl : slookup sheets0 "diff_exp_analysis_wide" with
  | none => rw [hsl] at hupd; cases hupd
  | some ws =>
    rw [hsl] at hupd
    obtain rfl : supsert sheets0 "summary" (summarySheet ws.1 ws.2) = sheets :=
      Except.ok.inj hupd
    refine ⟨ws.1, ws.2, ?_, ?_, rfl, ?_⟩
    · rw [slookup_supsert_ne sheets0 "summary" "diff_exp_analysis_wide" _ (by decide)]
      rw [hsl]
    · rw [slookup_supsert_self]
    · intro hnil
      rw [hnil]
      have hz : ∀ i : Option Nat, flagCountOpt ([] : List Row) i = 0 := by
        intro i; cases i <;> rfl
      simp [summarySheet, hz, pctCell]

/-- C6 witness: filtering `wbW` by an empty keep-set yields `filtW0`,
whose summary is recomputed from its zero-row wide sheet with all four
counters 0. -/
theorem claim6_witness :
    ∃ wh wr, slookup filtW0 "diff_exp_analysis_wide" = some (wh, wr) ∧
      slookup filtW0 "summary" = some (summarySheet wh wr) ∧
      (summarySheet wh wr).2 =
        [[Cell.int wr.length,
          pctCell (flagCountOpt wr (hIndex wh "CON")) wr.length,
          pctCell (flagCountOpt wr (hIndex wh "REV")) wr.length,
          Cell.int ((wr.length : Int) - (flagCountOpt wr (hIndex wh "REV") : Int) -
            (flagCountOpt wr (hIndex wh "CON") : Int))]] ∧
      (wr = [] → (summarySheet wh wr).2 =
        [[Cell.int 0, Cell.int 0, Cell.int 0, Cell.int 0]]) :=
  claim6_summary_recomputed wbW (∅ : Finset Cell) ["X"] filtW0 (by decide)

/-- C7 counterexample: a table whose header has `ContrastName` but no
paired `Contrast` column is in the claim's explicit format, yet
rewriting a row with a foreign contrast raises `ValueError` (the
`DictWriter` rejects the added `Contrast` key), so the filter does not
write the rows it read. -/
theorem claim7_counterexample :
    ("ContrastName" ∈ (Tsv.mk ["ContrastName"] [["X"]]).fieldnames) ∧
    filterAnnotationTsv ⟨["ContrastName"], [["X"]]⟩ (some ["Y"]) =
      Except.error Err.valueError := by
  exact ⟨by decide, by decide⟩

/-- C7 amended: when the header carries both `ContrastName` and the
paired `Contrast` column, the filter writes exactly as many rows as it
read, in order; row `i` is rewritten (both columns set to `"NA"`) iff
its stripped `ContrastName` is non-empty, not `"NA"`, and not kept;
every field outside those two columns is unchanged. -/
theorem claim7_annotation_rewrite (t : Tsv) (ks : List String)
    (hCN : "ContrastName" ∈ t.fieldnames) (hC : "Contrast" ∈ t.fieldnames) :
    ∃ rows', filterAnnotationTsv t (some ks) = Except.ok ⟨t.fieldnames, rows'⟩ ∧
      rows'.length = t.rows.length ∧
      ∀ i r, t.rows.get? i = some r → ∃ r', rows'.get? i = some r' ∧
        (annotCond t.fieldnames ks r →
          r' = setField t.fieldnames (setField t.fieldnames r "ContrastName" "NA")
            "Contrast" "NA") ∧
        (¬ annotCond t.fieldnames ks r → r' = r) ∧
        (∀ j i1 i2, fieldIdx t.fieldnames "ContrastName" = some i1 →
          fieldIdx t.fieldnames "Contrast" = some i2 → j ≠ i1 → j ≠ i2 →
          r'.getD j "" = r.getD j "") := by
  refine ⟨t.rows.map (rewriteRow t.fieldnames ks), ?_, by rw [List.length_map], ?_⟩
  · unfold filterAnnotationTsv
    rw [if_pos hCN]
    show (do
      let rows ← mapE (annotRow t.fieldnames ks) t.rows
      pure (Tsv.mk t.fieldnames rows) : Except Err Tsv) = _
    rw [mapE_map (annotRow t.fieldnames ks) (rewriteRow t.fieldnames ks) t.rows
      (fun r _ => annotRow_ok t.fieldnames ks r hC), ok_bind]
    rfl
  · intro i r hr
    refine ⟨rewriteRow t.fieldnames ks r, ?_, ?_, ?_, ?_⟩
    · rw [List.get?_map, hr]
      rfl
    · intro hcond
      unfold rewriteRow
      rw [if_pos hcond]
    · intro hcond
      unfold rewriteRow
      rw [if_neg hcond]
    · intro j i1 i2 hi1 hi2 hj1 hj2
      unfold rewriteRow
      by_cases hcond : annotCond t.fieldnames ks r
      · rw [if_pos hcond]
        unfold setField
        rw [hi1, hi2]
        rw [getD_set_ne _ _ _ _ hj2, getD_set_ne _ _ _ _ hj1]
      · rw [if_neg hcond]

/-- C7 amended witness: a three-column table with rows whose contrasts
are foreign (`X`), kept (`Y`) and already null (`NA`). -/
theorem claim7_witness :
    ∃ rows', filterAnnotationTsv
        ⟨["ContrastName", "Contrast", "G"],
         [["X", "c1", "g1"], ["Y", "c2", "g2"], ["NA", "c3", "g3"]]⟩ (some ["Y"]) =
        Except.ok ⟨["ContrastName", "Contrast", "G"], rows'⟩ ∧
      rows'.length = 3 ∧
      ∀ i r, ([["X", "c1", "g1"], ["Y", "c2", "g2"], ["NA", "c3", "g3"]] :
          List (List String)).get? i = some r →
        ∃ r', rows'.get? i = some r' ∧
        (annotCond ["ContrastName", "Contrast", "G"] ["Y"] r →
          r' = setField ["ContrastName", "Contrast", "G"]
            (setField ["ContrastName", "Contrast", "G"] r "ContrastName" "NA")
            "Contrast" "NA") ∧
        (¬ annotCond ["ContrastName", "Contrast", "G"] ["Y"] r → r' = r) ∧
        (∀ j i1 i2, fieldIdx ["ContrastName", "Contrast", "G"] "ContrastName" = some i1 →
          fieldIdx ["ContrastName", "Contrast", "G"] "Contrast" = some i2 → j ≠ i1 → j ≠ i2 →
          r'.getD j "" = r.getD j "") :=
  claim7_annotation_rewrite
    ⟨["ContrastName", "Contrast", "G"],
     [["X", "c1", "g1"], ["Y", "c2", "g2"], ["NA", "c3", "g3"]]⟩ ["Y"]
    (by decide) (by decide)

/-- C4: a valid site is classified complete iff it appears in a kept row
and has a non-null-FDR row for every kept contrast; and for a kept
contrast `c`, the site is in `partial_sites[c]` iff it is valid, has a
non-null-FDR row for `c`, and is not covered on every kept contrast.  A
site covered only on contrast `X` therefore lands in `partial[X]` and in
no other contrast's list. -/
theorem claim4_coverage_classification (wb : Workbook) (kc : List String)
    (hkc : kc.Nodup) (P : SelParts) (hP : selParts wb kc = Except.ok P)
    (g : Grid) (siteI contrastI fdrI : Nat)
    (hg : getSheet wb "diff_exp_analysis" = Except.ok g)
    (hi1 : exIdx (headOf g) "site" = Except.ok siteI)
    (hi2 : exIdx (headOf g) "contrast" = Except.ok contrastI)
    (hi3 : exIdx (headOf g) "FDR" = Except.ok fdrI)
    (s : Cell) (c : String) (hc : c ∈ kc) :
    (s ∈ P.complete ↔
      ((alookup P.meta s).isSome ∧ keptHit siteI contrastI kc (tailRows g) s ∧
        ∀ c' ∈ kc, fdrHit siteI contrastI fdrI (tailRows g) s c')) ∧
    (∀ plist, alookup P.partLists c = some plist →
      (s ∈ plist ↔
        ((alookup P.meta s).isSome ∧ fdrHit siteI contrastI fdrI (tailRows g) s c ∧
          ¬ ∀ c' ∈ kc, fdrHit siteI contrastI fdrI (tailRows g) s c'))) := by
  obtain ⟨g', g2, siteI', contrastI', fdrI', wSiteI, wRevI, wConI, wSwI, wModI, wProtI,
    hg', h1', h2', h3', hg2', h4', h5', h6', h7', h8', h9', hPeq⟩ := selParts_ok_inv hP
  obtain rfl : g = g' := Except.ok.inj (hg.symm.trans hg')
  obtain rfl : siteI = siteI' := Except.ok.inj (hi1.symm.trans h1')
  obtain rfl : contrastI = contrastI' := Except.ok.inj (hi2.symm.trans h2')
  obtain rfl : fdrI = fdrI' := Except.ok.inj (hi3.symm.trans h3')
  subst hPeq
  simp only
  have hnd := buildSC_keysNodup siteI contrastI fdrI kc (tailRows g)
  constructor
  · rw [mem_completeList _ _ _ _ hnd]
    constructor
    · rintro ⟨cs, hcs, hsome, hlen⟩
      refine ⟨hsome, ?_, (complete_len_iff siteI contrastI fdrI kc (tailRows g)
        hkc s cs hcs).mp hlen⟩
      refine (buildSC_dom siteI contrastI fdrI kc (tailRows g) s).mp ?_
      rw [hcs]
      rfl
    · rintro ⟨hsome, hkept, hall⟩
      have hdom := (buildSC_dom siteI contrastI fdrI kc (tailRows g) s).mpr hkept
      obtain ⟨cs, hcs⟩ := Option.isSome_iff_exists.mp hdom
      exact ⟨cs, hcs, hsome,
        (complete_len_iff siteI contrastI fdrI kc (tailRows g) hkc s cs hcs).mpr hall⟩
  · intro plist hplist
    have hmap : alookup ((firstDedup kc).map (fun c0 =>
        (c0, partListFor (buildSC siteI contrastI fdrI kc (tailRows g))
          (buildMeta wSiteI wRevI wConI wSwI wModI wProtI (tailRows g2)) kc.length c0))) c =
        some (partListFor (buildSC siteI contrastI fdrI kc (tailRows g))
          (buildMeta wSiteI wRevI wConI wSwI wModI wProtI (tailRows g2)) kc.length c) :=
      alookup_mapPair _ (firstDedup kc) c (nodup_firstDedup kc)
        ((mem_firstDedup kc c).mpr hc)
    rw [hmap] at hplist
    obtain rfl := Option.some.inj hplist
    rw [mem_partListFor _ _ _ _ _ hnd]
    constructor
    · rintro ⟨cs, hcs, hsome, hlen, hcmem⟩
      refine ⟨hsome, ((buildSC_memC siteI contrastI fdrI kc (tailRows g) s c).mp
        ⟨cs, hcs, hcmem⟩).2, ?_⟩
      intro hall
      exact hlen ((complete_len_iff siteI contrastI fdrI kc (tailRows g)
        hkc s cs hcs).mpr hall)
    · rintro ⟨hsome, hfdr, hnall⟩
      obtain ⟨cs, hcs, hcmem⟩ :=
        (buildSC_memC siteI contrastI fdrI kc (tailRows g) s c).mpr ⟨hc, hfdr⟩
      refine ⟨cs, hcs, hsome, ?_, hcmem⟩
      intro hlen
      exact hnall ((complete_len_iff siteI contrastI fdrI kc (tailRows g)
        hkc s cs hcs).mp hlen)

/-- C4 witness: on `wbC2` with kept contrasts `X`, `Y`, `Z`, site `a`
(covered only on `X`) is classified partial and sits in `partial[X]`. -/
theorem claim4_witness :
    ((Cell.str "a" ∈ partsC2.complete ↔
      ((alookup partsC2.meta (Cell.str "a")).isSome ∧
        keptHit 0 1 ["X", "Y", "Z"] (tailRows (wbC2.get! 0).2) (Cell.str "a") ∧
        ∀ c' ∈ ["X", "Y", "Z"],
          fdrHit 0 1 2 (tailRows (wbC2.get! 0).2) (Cell.str "a") c')) ∧
    (∀ plist, alookup partsC2.partLists "X" = some plist →
      (Cell.str "a" ∈ plist ↔
        ((alookup partsC2.meta (Cell.str "a")).isSome ∧
          fdrHit 0 1 2 (tailRows (wbC2.get! 0).2) (Cell.str "a") "X" ∧
          ¬ ∀ c' ∈ ["X", "Y", "Z"],
            fdrHit 0 1 2 (tailRows (wbC2.get! 0).2) (Cell.str "a") c')))) :=
  claim4_coverage_classification wbC2 ["X", "Y", "Z"] (by decide) partsC2 (by decide)
    (wbC2.get! 0).2 0 1 2 rfl rfl rfl rfl (Cell.str "a") "X" (by decide)

/-- C3: every site selected by `select_phosphosites` passed the validity
screen in the wide sheet: some wide row carries the site with a decoy
flag that is not truthy, a contaminant flag that is not truthy, and a
sequence-context string of length at least 7. -/
theorem claim3_selected_sites_valid {σ : Type} (smp : Sampler σ)
    (hgood : GoodSampler smp) (st : σ) (wb : Workbook) (n : Nat) (kc : List String)
    (g2 : Grid) (wSiteI wRevI wConI wSwI wModI wProtI : Nat)
    (hg2 : getSheet wb "diff_exp_analysis_wide" = Except.ok g2)
    (h4 : exIdx (headOf g2) "site" = Except.ok wSiteI)
    (h5 : exIdx (headOf g2) "REV" = Except.ok wRevI)
    (h6 : exIdx (headOf g2) "CON" = Except.ok wConI)
    (h7 : exIdx (headOf g2) "SequenceWindow" = Except.ok wSwI)
    (h8 : exIdx (headOf g2) "modAA" = Except.ok wModI)
    (h9 : exIdx (headOf g2) "protein_Id" = Except.ok wProtI)
    (sel prots : Finset Cell) (st2 : σ)
    (hsel : selectPhosphosites smp st wb n kc = Except.ok (sel, prots, st2)) :
    ∀ s ∈ sel, ∃ row ∈ tailRows g2, cellAt row wSiteI = s ∧
      isTrueFlag (cellAt row wRevI) = false ∧
      isTrueFlag (cellAt row wConI) = false ∧
      7 ≤ (pyStr (cellAt row wSwI)).length := by
  obtain ⟨P, hP, hk, hr⟩ := selectPhosphosites_ok_inv hsel
  have hmeta := selected_meta_isSome hgood hP hsel
  obtain ⟨g, g2', siteI, contrastI, fdrI, wSiteI', wRevI', wConI', wSwI', wModI', wProtI',
    hg', h1', h2', h3', hg2', h4', h5', h6', h7', h8', h9', hPeq⟩ := selParts_ok_inv hP
  obtain rfl : g2 = g2' := Except.ok.inj (hg2.symm.trans hg2')
  obtain rfl : wSiteI = wSiteI' := Except.ok.inj (h4.symm.trans h4')
  obtain rfl : wRevI = wRevI' := Except.ok.inj (h5.symm.trans h5')
  obtain rfl : wConI = wConI' := Except.ok.inj (h6.symm.trans h6')
  obtain rfl : wSwI = wSwI' := Except.ok.inj (h7.symm.trans h7')
  obtain rfl : wModI = wModI' := Except.ok.inj (h8.symm.trans h8')
  obtain rfl : wProtI = wProtI' := Except.ok.inj (h9.symm.trans h9')
  intro s hs
  have hsome := hmeta s hs
  rw [hPeq] at hsome
  simp only at hsome
  obtain ⟨row, hrow, hvalid, hsite⟩ :=
    (buildMeta_dom wSiteI wRevI wConI wSwI wModI wProtI (tailRows g2) s).mp hsome
  exact ⟨row, hrow, hsite, hvalid.1, hvalid.2.1, validSW_length hvalid.2.2⟩

/-- C3 witness: the theorem applied to `wbW`, instantiated at the
selected site `s1`. -/
theorem claim3_witness :
    ∃ row ∈ tailRows
        [[Cell.str "site", Cell.str "REV", Cell.str "CON", Cell.str "SequenceWindow",
          Cell.str "modAA", Cell.str "protein_Id"],
         [Cell.str "s1", Cell.bool false, Cell.bool false, Cell.str "AAAAAAA",
          Cell.str "S", Cell.str "P1"],
         [Cell.str "s2", Cell.bool false, Cell.bool false, Cell.str "AAAAAAA",
          Cell.str "T", Cell.str "P2"],
         [Cell.str "s3", Cell.bool false, Cell.bool false, Cell.str "AAAAAAA",
          Cell.str "S", Cell.str "P3"]],
      cellAt row 0 = Cell.str "s1" ∧
      isTrueFlag (cellAt row 1) = false ∧
      isTrueFlag (cellAt row 2) = false ∧
      7 ≤ (pyStr (cellAt row 3)).length :=
  claim3_selected_sites_valid takeSmp goodTake () wbW 1 ["X"]
    [[Cell.str "site", Cell.str "REV", Cell.str "CON", Cell.str "SequenceWindow",
      Cell.str "modAA", Cell.str "protein_Id"],
     [Cell.str "s1", Cell.bool false, Cell.bool false, Cell.str "AAAAAAA",
      Cell.str "S", Cell.str "P1"],
     [Cell.str "s2", Cell.bool false, Cell.bool false, Cell.str "AAAAAAA",
      Cell.str "T", Cell.str "P2"],
     [Cell.str "s3", Cell.bool false, Cell.bool false, Cell.str "AAAAAAA",
      Cell.str "S", Cell.str "P3"]]
    0 1 2 3 4 5 rfl rfl rfl rfl rfl rfl rfl
    {Cell.str "s1"} {Cell.str "P1"} () (by decide)
    (Cell.str "s1") (by decide)

/-- C1: for every phospho workbook whose candidate pools are `P`, the
complete sample drawn by `select_phosphosites` is duplicate-free, has
exactly `min(N, |complete candidates|)` sites, is drawn from the
complete candidates, and the final selection contains no complete
candidate beyond that sample — a shortfall is never backfilled, whether
from the complete pool or from the partial pools. -/
theorem claim1_complete_sample_size {σ : Type} (smp : Sampler σ)
    (hgood : GoodSampler smp) (st : σ) (wb : Workbook) (n : Nat) (kc : List String)
    (P : SelParts) (hP : selParts wb kc = Except.ok P)
    (sel prots : Finset Cell) (st2 : σ)
    (hsel : selectPhosphosites smp st wb n kc = Except.ok (sel, prots, st2)) :
    (smp.run st P.complete (nCompleteOf n P)).1.Nodup ∧
    (smp.run st P.complete (nCompleteOf n P)).1.toFinset.card =
      min n P.complete.length ∧
    (smp.run st P.complete (nCompleteOf n P)).1.toFinset ⊆ P.complete.toFinset ∧
    sel ∩ P.complete.toFinset = (smp.run st P.complete (nCompleteOf n P)).1.toFinset := by
  obtain ⟨P', hP', hk, hr⟩ := selectPhosphosites_ok_inv hsel
  obtain rfl : P = P' := Except.ok.inj (hP.symm.trans hP')
  have hmin : nCompleteOf n P ≤ P.complete.length := Nat.min_le_right _ _
  have hg := hgood st P.complete (nCompleteOf n P) hmin
  have hnodup : (smp.run st P.complete (nCompleteOf n P)).1.Nodup :=
    hg.2.2 (selParts_complete_nodup hP)
  have hsub : (smp.run st P.complete (nCompleteOf n P)).1.toFinset ⊆
      P.complete.toFinset := by
    intro x hx
    exact List.mem_toFinset.mpr (hg.2.1 x (List.mem_toFinset.mp hx))
  refine ⟨hnodup, ?_, hsub, ?_⟩
  · rw [List.toFinset_card_of_nodup hnodup, hg.1]
    rfl
  · have h1 : sel = (pickGo smp (nPerOf n kc P) P.partLists
        ((smp.run st P.complete (nCompleteOf n P)).1.toFinset)
        ((smp.run st P.complete (nCompleteOf n P)).2)).1 :=
      congrArg (fun x => x.1) hr
    rw [h1]
    have hdisj : ∀ p ∈ P.partLists, ∀ x ∈ p.2, x ∉ P.complete.toFinset := by
      intro p hp x hx hmem
      exact selParts_partial_disjoint hP p hp x hx (List.mem_toFinset.mp hmem)
    rw [pickGo_inter smp hgood (nPerOf n kc P) P.complete.toFinset
      P.partLists _ _ hdisj]
    exact Finset.inter_eq_left.mpr hsub

/-- C1 witness: the theorem applied to the concrete workbook `wbW` with
target 1 and kept contrast `X`, where the first-`k` sampler selects
exactly site `s1`. -/
theorem claim1_witness :
    (takeSmp.run () partsW.complete (nCompleteOf 1 partsW)).1.Nodup ∧
    (takeSmp.run () partsW.complete (nCompleteOf 1 partsW)).1.toFinset.card =
      min 1 partsW.complete.length ∧
    (takeSmp.run () partsW.complete (nCompleteOf 1 partsW)).1.toFinset ⊆
      partsW.complete.toFinset ∧
    ({Cell.str "s1"} : Finset Cell) ∩ partsW.complete.toFinset =
      (takeSmp.run () partsW.complete (nCompleteOf 1 partsW)).1.toFinset :=
  claim1_complete_sample_size takeSmp goodTake () wbW 1 ["X"] partsW (by decide)
    {Cell.str "s1"} {Cell.str "P1"} () (by decide)

/-- C2 counterexample: with target `N = 5` and three kept contrasts, the
quota is `n_partial = min(5 // 5, 3) = 1` and `n_per_contrast =
max(1, 1 // 3) = 1`, so three partial sites are added while the claimed
bound is `max(1, 5 // 5) = 1`; the selection has 3 sites although no
complete candidate exists. -/
theorem claim2_counterexample :
    GoodSampler takeSmp ∧
    selParts wbC2 ["X", "Y", "Z"] = Except.ok partsC2 ∧
    selectPhosphosites takeSmp () wbC2 5 ["X", "Y", "Z"] =
      Except.ok ({Cell.str "a", Cell.str "b", Cell.str "c"},
        {Cell.str "P1", Cell.str "P2", Cell.str "P3"}, ()) ∧
    nCompleteOf 5 partsC2 = 0 ∧
    ({Cell.str "a", Cell.str "b", Cell.str "c"} : Finset Cell).card - nCompleteOf 5 partsC2 = 3 ∧
    ¬ (({Cell.str "a", Cell.str "b", Cell.str "c"} : Finset Cell).card -
        nCompleteOf 5 partsC2 ≤ max 1 (5 / 5)) :=
  ⟨goodTake, by decide, by decide, by decide, by decide, by decide⟩

/-- C2 amended: the number of sites selected beyond the complete sample
is at most `|partial_sites| * max(1, min(N // 5, total partial) // |C|)`
— each kept contrast contributes at most the per-contrast quota, and no
leftover quota is rebalanced — equivalently the whole selection has at
most `min(N, |complete|) + |C'| * max(1, n_partial // |C|)` sites, where
`C'` is the deduplicated kept-contrast list.  The spec's bound
`max(1, N // 5)` can be exceeded when `|C| > max(1, N // 5)`. -/
theorem claim2_partial_bound {σ : Type} (smp : Sampler σ)
    (hgood : GoodSampler smp) (st : σ) (wb : Workbook) (n : Nat) (kc : List String)
    (P : SelParts) (hP : selParts wb kc = Except.ok P)
    (sel prots : Finset Cell) (st2 : σ)
    (hsel : selectPhosphosites smp st wb n kc = Except.ok (sel, prots, st2)) :
    sel.card ≤ min n P.complete.length + P.partLists.length * nPerOf n kc P := by
  obtain ⟨P', hP', hk, hr⟩ := selectPhosphosites_ok_inv hsel
  obtain rfl : P = P' := Except.ok.inj (hP.symm.trans hP')
  have h1 : sel = (pickGo smp (nPerOf n kc P) P.partLists
      ((smp.run st P.complete (nCompleteOf n P)).1.toFinset)
      ((smp.run st P.complete (nCompleteOf n P)).2)).1 :=
    congrArg (fun x => x.1) hr
  rw [h1]
  have h2 := pickGo_card smp hgood (nPerOf n kc P) P.partLists
    ((smp.run st P.complete (nCompleteOf n P)).1.toFinset)
    ((smp.run st P.complete (nCompleteOf n P)).2)
  refine le_trans h2 (Nat.add_le_add_right ?_ _)
  have h3 := (hgood st P.complete (nCompleteOf n P) (Nat.min_le_right _ _)).1
  have h4 := List.toFinset_card_le (smp.run st P.complete (nCompleteOf n P)).1
  rw [h3] at h4
  exact h4

/-- C2 amended witness: on `wbC2` with `N = 5` and three kept contrasts
the selection has 3 sites, within the amended bound `0 + 3 * 1`. -/
theorem claim2_witness :
    ({Cell.str "a", Cell.str "b", Cell.str "c"} : Finset Cell).card ≤
      min 5 partsC2.complete.length +
        partsC2.partLists.length * nPerOf 5 ["X", "Y", "Z"] partsC2 :=
  claim2_partial_bound takeSmp goodTake () wbC2 5 ["X", "Y", "Z"] partsC2 (by decide)
    {Cell.str "a", Cell.str "b", Cell.str "c"}
    {Cell.str "P1", Cell.str "P2", Cell.str "P3"} () (by decide)

/-- C5: `select_proteins` returns exactly the intersection of the
owning-protein-id set with the protein ids present in the protein wide
table; the keep-set is therefore a subset of the table's ids, a protein
absent from the table is excluded, and the site keep-set produced by the
selection pipeline is unchanged by protein selection. -/
theorem claim5_protein_intersection {σ : Type} (smp : Sampler σ) (st : σ)
    (phWb prWb : Workbook) (n : Nat) (kc : List String)
    (g : Grid) (protI : Nat)
    (hg : getSheet prWb "diff_exp_analysis_wide" = Except.ok g)
    (hpi : exIdx (headOf g) "protein_Id" = Except.ok protI)
    (sites pids : Finset Cell) (st2 : σ)
    (hph : selectPhosphosites smp st phWb n kc = Except.ok (sites, pids, st2)) :
    selectProteins prWb pids =
      Except.ok (pids ∩ ((tailRows g).map (fun r => cellAt r protI)).toFinset) ∧
    runSelect smp st phWb prWb n kc =
      Except.ok (sites, pids ∩ ((tailRows g).map (fun r => cellAt r protI)).toFinset) ∧
    pids ∩ ((tailRows g).map (fun r => cellAt r protI)).toFinset ⊆
      ((tailRows g).map (fun r => cellAt r protI)).toFinset ∧
    ∀ p, p ∉ ((tailRows g).map (fun r => cellAt r protI)).toFinset →
      p ∉ pids ∩ ((tailRows g).map (fun r => cellAt r protI)).toFinset := by
  have hsp : selectProteins prWb pids =
      Except.ok (pids ∩ ((tailRows g).map (fun r => cellAt r protI)).toFinset) := by
    unfold selectProteins
    rw [hg, ok_bind, hpi, ok_bind]
    rfl
  refine ⟨hsp, ?_, Finset.inter_subset_right, ?_⟩
  · unfold runSelect
    rw [hph, ok_bind]
    simp only
    rw [hsp, ok_bind]
    rfl
  · intro p hp hmem
    exact hp (Finset.mem_inter.mp hmem).2

/-- C5 witness: phospho selection on `wbW` with target 2 keeps sites
`s1`, `s2` owned by `P1`, `P2`; the protein table `wbProt` contains only
`P1` and `Q9`, so the protein keep-set is `{P1}` while both sites stay
selected. -/
theorem claim5_witness :
    selectProteins wbProt {Cell.str "P1", Cell.str "P2"} =
      Except.ok ({Cell.str "P1", Cell.str "P2"} ∩
        ((tailRows (wbProt.get! 0).2).map (fun r => cellAt r 0)).toFinset) ∧
    runSelect takeSmp () wbW wbProt 2 ["X"] =
      Except.ok ({Cell.str "s1", Cell.str "s2"},
        {Cell.str "P1", Cell.str "P2"} ∩
          ((tailRows (wbProt.get! 0).2).map (fun r => cellAt r 0)).toFinset) ∧
    {Cell.str "P1", Cell.str "P2"} ∩
        ((tailRows (wbProt.get! 0).2).map (fun r => cellAt r 0)).toFinset ⊆
      ((tailRows (wbProt.get! 0).2).map (fun r => cellAt r 0)).toFinset ∧
    ∀ p, p ∉ ((tailRows (wbProt.get! 0).2).map (fun r => cellAt r 0)).toFinset →
      p ∉ {Cell.str "P1", Cell.str "P2"} ∩
        ((tailRows (wbProt.get! 0).2).map (fun r => cellAt r 0)).toFinset :=
  claim5_protein_intersection takeSmp () wbW wbProt 2 ["X"] (wbProt.get! 0).2 0
    rfl rfl {Cell.str "s1", Cell.str "s2"} {Cell.str "P1", Cell.str "P2"} ()
    (by decide)

/-- C10: on a well-formed phospho workbook (candidate-pool construction
succeeds), `select_phosphosites` with an empty kept-contrast list always
raises `ZeroDivisionError` from `n_partial // n_contrasts` and never
returns a selection; with any non-empty kept-contrast list it returns
normally. -/
theorem claim10_zero_division {σ : Type} (smp : Sampler σ) (st : σ) (wb : Workbook)
    (n : Nat) (P : SelParts) (hP : selParts wb [] = Except.ok P)
    (kc : List String) (hkc : kc ≠ []) :
    selectPhosphosites smp st wb n [] = Except.error Err.zeroDivision ∧
    ∃ r, selectPhosphosites smp st wb n kc = Except.ok r := by
  obtain ⟨g, g2, siteI, contrastI, fdrI, wSiteI, wRevI, wConI, wSwI, wModI, wProtI,
    hg, h1, h2, h3, hg2, h4, h5, h6, h7, h8, h9, _⟩ := selParts_ok_inv hP
  have hP' := selParts_eq wb kc g g2 siteI contrastI fdrI wSiteI wRevI wConI wSwI
    wModI wProtI hg h1 h2 h3 hg2 h4 h5 h6 h7 h8 h9
  exact ⟨selectPhosphosites_err_nil smp st wb n P hP,
    ⟨_, selectPhosphosites_ok smp st wb n kc _ hP' hkc⟩⟩

/-- C10 witness: on the concrete workbook `wbW`, the empty contrast list
yields `ZeroDivisionError` while `["X"]` returns a selection. -/
theorem claim10_witness :
    selectPhosphosites takeSmp () wbW 7 [] = Except.error Err.zeroDivision ∧
    ∃ r, selectPhosphosites takeSmp () wbW 7 ["X"] = Except.ok r :=
  claim10_zero_division takeSmp () wbW 7 ⟨[], [], partsW.meta⟩ (by decide)
    ["X"] (by decide)

end PtmSubset
